import Mathlib

/-!
Verification development for the virtue derive-macro toolkit.

The Rust sources under `src/` are shallowly embedded: the proc-macro token
model (`TokenTree`, `Ident`, `Punct`, `Literal`, `Group`, `Delimiter`,
`Spacing`, `Span`) becomes a Lean inductive family, every fallible Rust
function returns an `Outcome` (success, `Err`, panic, or fuel exhaustion for
the source's unbounded loops), and the mutable `Peekable<Iterator>` inputs
become explicit `List TokenTree` state threading: a function that advances
the iterator returns the remaining list alongside its result.

Spans are modelled as bare `Nat` handles; `Span::call_site()` is the handle
`0`.  Rust `Debug`/`format!` message rendering is modelled by simplified
string builders (no claim depends on the exact message text).
-/

namespace Virtue

/-- Span handle; `Span::call_site()` is modelled as `0`. -/
def callSite : Nat := 0

/-- The apostrophe character, written via its code point to keep source text plain. -/
def quoteChar : Char := Char.ofNat 39

/-- String holding a single apostrophe, used by the message builders. -/
def sq : String := String.singleton quoteChar

/-- proc_macro `Delimiter`. -/
inductive Delimiter where
  | parenthesis
  | brace
  | bracket
  | none
deriving DecidableEq, Repr

/-- proc_macro `Spacing`. -/
inductive Spacing where
  | alone
  | joint
deriving DecidableEq, Repr

/-- proc_macro `Ident`: a name together with its span handle. -/
structure Ident where
  name : String
  span : Nat
deriving DecidableEq, Repr

/-- proc_macro `Punct`: one punctuation character, its spacing, and its span. -/
structure Punct where
  ch : Char
  spacing : Spacing
  span : Nat
deriving DecidableEq, Repr

/-- proc_macro `Literal`: kept as its textual rendering (`to_string`) plus span. -/
structure Lit where
  text : String
  span : Nat
deriving DecidableEq, Repr

/-- proc_macro `TokenTree`. A `group` nests a delimiter-bracketed stream. -/
inductive TokenTree where
  | ident (i : Ident)
  | punct (p : Punct)
  | lit (l : Lit)
  | group (delim : Delimiter) (stream : List TokenTree) (span : Nat)
deriving Repr

/-- proc_macro `Group`, as stored by `Attribute`. -/
structure Group where
  delim : Delimiter
  stream : List TokenTree
  span : Nat
deriving Repr

/-- Repack a `Group` as a token. -/
def Group.toToken (g : Group) : TokenTree :=
  TokenTree.group g.delim g.stream g.span

/-- Span of a token (`TokenTree::span`). -/
def TokenTree.span : TokenTree → Nat
  | .ident i => i.span
  | .punct p => p.span
  | .lit l => l.span
  | .group _ _ sp => sp

/-- Simplified stand-in for Rust's `Debug` rendering of a token (message text only). -/
def TokenTree.debugStr : TokenTree → String
  | .ident i => "Ident(" ++ i.name ++ ")"
  | .punct p => "Punct(" ++ String.singleton p.ch ++ ")"
  | .lit l => "Literal(" ++ l.text ++ ")"
  | .group _ _ _ => "Group(..)"

/-- Simplified stand-in for Rust's `Debug` rendering of `Option<&TokenTree>`. -/
def debugOptToken : Option TokenTree → String
  | Option.none => "None"
  | Option.some t => "Some(" ++ t.debugStr ++ ")"

/-- Rust `Debug` of a char: the character between apostrophes. -/
def debugChar (c : Char) : String := sq ++ String.singleton c ++ sq

/-- Rust `Debug` of a char slice: `[c1, c2, ...]` with each char quoted. -/
def debugCharList (cs : List Char) : String :=
  "[" ++ String.intercalate ", " (cs.map debugChar) ++ "]"

/-- The error enum of `src/error.rs`. `PushParse` keeps the offending code text. -/
inductive Error where
  | unknownDataType (span : Nat)
  | invalidRustSyntax (span : Nat) (expected : String)
  | expectedIdent (span : Nat)
  | pushParse (code : String)
  | custom (error : String) (span : Option Nat)
deriving DecidableEq, Repr

/-- Test helper `Error::is_unknown_data_type` from `src/error.rs`. -/
def Error.is_unknown_data_type : Error → Bool
  | .unknownDataType _ => true
  | _ => false

/-- Test helper `Error::is_invalid_rust_syntax` from `src/error.rs`. -/
def Error.is_invalid_rust_syntax : Error → Bool
  | .invalidRustSyntax _ _ => true
  | _ => false

/-- Computation outcome: success, a returned `Err`, a Rust panic, or fuel
exhaustion (used only to model the source's loops; sufficiency of the supplied
fuel is proved where a claim depends on termination). -/
inductive Outcome (α : Type) where
  | ok (val : α)
  | err (e : Error)
  | panic (msg : String)
  | diverge
deriving Repr

/-- Sequencing for `Outcome`: failures propagate. -/
def Outcome.bind {α β : Type} : Outcome α → (α → Outcome β) → Outcome β
  | .ok a, f => f a
  | .err e, _ => .err e
  | .panic m, _ => .panic m
  | .diverge, _ => .diverge

instance : Monad Outcome where
  pure := Outcome.ok
  bind := Outcome.bind

/-- True exactly on `Outcome.err (Error.invalidRustSyntax ..)`. -/
def Outcome.is_invalid_rust_syntax {α : Type} : Outcome α → Bool
  | .err e => Error.is_invalid_rust_syntax e
  | _ => false

/-- True exactly on `Outcome.ok`. -/
def Outcome.isOk {α : Type} : Outcome α → Bool
  | .ok _ => true
  | _ => false

/-- Panic message of `unreachable!()`. -/
def unreachableMsg : String := "internal error: entered unreachable code"

/-- Model of `Error::wrong_token` from `src/error.rs`. -/
def Error.wrong_token (token : Option TokenTree) (expected : String) : Error :=
  .invalidRustSyntax ((token.map TokenTree.span).getD callSite)
    (expected ++ ", got " ++ debugOptToken token)

/-! ## `src/parse/utils.rs` -/

/-- Model of `assume_ident`: the token is known to be an identifier; `unreachable!()` otherwise. -/
def assume_ident : Option TokenTree → Outcome Ident
  | Option.some (.ident i) => .ok i
  | _ => .panic unreachableMsg

/-- Model of `assume_punct`: the token is known to be the given punctuation.  The char
comparison is a `debug_assert_eq!`, modelled as a panic on mismatch (debug
build semantics). -/
def assume_punct (t : Option TokenTree) (punct : Char) : Outcome Punct :=
  match t with
  | Option.some (.punct p) => if p.ch = punct then .ok p else .panic "assertion failed"
  | _ => .panic unreachableMsg

/-- Model of `consume_ident`: consume an identifier, also accepting a `None`-delimited
group wrapping exactly one identifier (macro_rules interop). -/
def consume_ident : List TokenTree → Option (Ident × List TokenTree)
  | (.ident i) :: rest => Option.some (i, rest)
  | (.group _ stream _) :: rest =>
    match stream with
    | [.ident i] => Option.some (i, rest)
    | _ => Option.none
  | _ => Option.none

/-- Model of `consume_punct_if`: consume the next token when it is the given punctuation;
otherwise leave the input untouched. -/
def consume_punct_if (input : List TokenTree) (punct : Char) : Option Punct × List TokenTree :=
  match input with
  | (.punct p) :: rest => if p.ch = punct then (Option.some p, rest) else (Option.none, input)
  | _ => (Option.none, input)

/-- Model of `check_if_arrow`: a `>` immediately after a copied `-` is the arrow operator,
not a closing bracket. -/
def check_if_arrow (tokens : List TokenTree) (c : Char) : Bool :=
  if c = '>' then
    match tokens.getLast? with
    | Option.some (.punct p) => p.ch = '-'
    | _ => false
  else false

def OPEN_BRACKETS : List Char := ['<', '(', '[', '{']

def CLOSING_BRACKETS : List Char := ['>', ')', ']', '}']

def BRACKET_DELIMITER : List (Option Delimiter) :=
  [Option.none, Option.some Delimiter.parenthesis, Option.some Delimiter.bracket,
    Option.some Delimiter.brace]

/-- Rust `Iterator::position` on a char list. -/
def position (l : List Char) (c : Char) : Option Nat :=
  match l with
  | [] => Option.none
  | x :: xs => if x = c then Option.some 0 else (position xs c).map (· + 1)

/-- Message of the `read_tokens_until_punct` error branch:
`one of {expected:?}, got '{c}'`. -/
def oneOfMsg (expected_puncts : List Char) (c : Char) : String :=
  "one of " ++ debugCharList expected_puncts ++ ", got " ++ sq ++ String.singleton c ++ sq

/-- Message of the `assert_eq!` in `read_tokens_until_punct` (the formatted
custom part of the assertion panic). -/
def assertClosingMsg (found expected : Char) : String :=
  "Unexpected closing bracket: found " ++ String.singleton found ++ ", expected "
    ++ String.singleton expected

/-- Group-stop test of `read_tokens_until_punct`: stop before a group whose
delimiter is implied by one of the expected terminator puncts. -/
def group_splits (expected_puncts : List Char) (d : Delimiter) : Bool :=
  expected_puncts.any (fun punct =>
    match position OPEN_BRACKETS punct with
    | Option.some idx =>
      match BRACKET_DELIMITER.getD idx Option.none with
      | Option.some delim => delim = d
      | Option.none => false
    | Option.none => false)

/-- Loop body of `read_tokens_until_punct`.  `result` is the copied run so far,
`open_brackets` the bracket stack (head = top, mirroring `Vec` push/pop at the
back), and the returned pair is the copied run together with the unconsumed
remainder of the input. -/
def read_tokens_until_punct_aux (expected_puncts : List Char) :
    List TokenTree → List Char → List TokenTree → Outcome (List TokenTree × List TokenTree)
  | result, _, [] => .ok (result, [])
  | result, open_brackets, t :: rest =>
    match t with
    | .punct p =>
      if check_if_arrow result p.ch then
        -- arrow: treated as ordinary punctuation, copy it
        read_tokens_until_punct_aux expected_puncts (result ++ [t]) open_brackets rest
      else if OPEN_BRACKETS.contains p.ch then
        read_tokens_until_punct_aux expected_puncts (result ++ [t]) (p.ch :: open_brackets) rest
      else
        match position CLOSING_BRACKETS p.ch with
        | Option.some index =>
          match open_brackets with
          | [] =>
            if expected_puncts.contains p.ch then
              .ok (result, t :: rest)
            else
              .err (.invalidRustSyntax p.span (oneOfMsg expected_puncts p.ch))
          | last_bracket :: open_rest =>
            -- `assert_eq!(expected, last_bracket, ..)`: panic on mismatch
            if OPEN_BRACKETS.getD index ' ' = last_bracket then
              read_tokens_until_punct_aux expected_puncts (result ++ [t]) open_rest rest
            else
              .panic (assertClosingMsg p.ch (OPEN_BRACKETS.getD index ' '))
        | Option.none =>
          if expected_puncts.contains p.ch && open_brackets.isEmpty then
            .ok (result, t :: rest)
          else
            read_tokens_until_punct_aux expected_puncts (result ++ [t]) open_brackets rest
    | .group d _ _ =>
      if open_brackets.isEmpty then
        if group_splits expected_puncts d then
          .ok (result, t :: rest)
        else
          read_tokens_until_punct_aux expected_puncts (result ++ [t]) open_brackets rest
      else
        read_tokens_until_punct_aux expected_puncts (result ++ [t]) open_brackets rest
    | _ => read_tokens_until_punct_aux expected_puncts (result ++ [t]) open_brackets rest

/-- Model of `read_tokens_until_punct` from `src/parse/utils.rs`. -/
def read_tokens_until_punct (input : List TokenTree) (expected_puncts : List Char) :
    Outcome (List TokenTree × List TokenTree) :=
  read_tokens_until_punct_aux expected_puncts [] [] input

/-- Model of `ident_eq` (non-test build): compare an identifier's text. -/
def ident_eq (ident : Ident) (text : String) : Bool :=
  ident.name = text

/-! ## `src/generate/stream_builder.rs` -/

/-- Rust identifier shape, used by the host-tokenizer model below. -/
def isIdentString (s : String) : Bool :=
  match s.data with
  | [] => false
  | c :: cs => (c.isAlpha || c = '_') && cs.all (fun d => d.isAlphanum || d = '_')

/-- Modelled from the spec: the host compiler's tokenizer backing the
append-parsed operation (`TokenStream::from_str`), which is external to this
repository.  The development feeds it single-identifier fragments only, so the
model tokenizes exactly those and reports a lex failure on anything else. -/
def tokenStreamFromStr (s : String) : Option (List TokenTree) :=
  if isIdentString s then Option.some [TokenTree.ident ⟨s, callSite⟩] else Option.none

/-- Model of `StreamBuilder`: an append-only token buffer. -/
structure StreamBuilder where
  stream : List TokenTree
deriving Repr

/-- Model of `StreamBuilder::new`. -/
def StreamBuilder.new : StreamBuilder := ⟨[]⟩

/-- Model of `StreamBuilder::extend`. -/
def StreamBuilder.extend (b : StreamBuilder) (item : List TokenTree) : StreamBuilder :=
  ⟨b.stream ++ item⟩

/-- Model of `StreamBuilder::append`. -/
def StreamBuilder.append (b : StreamBuilder) (builder : StreamBuilder) : StreamBuilder :=
  ⟨b.stream ++ builder.stream⟩

/-- Model of `StreamBuilder::push`. -/
def StreamBuilder.push (b : StreamBuilder) (item : TokenTree) : StreamBuilder :=
  ⟨b.stream ++ [item]⟩

/-- Model of `StreamBuilder::push_parsed`: tokenize a free-form fragment and append its
tokens; a lex failure surfaces as a `PushParse` error carrying the text. -/
def StreamBuilder.push_parsed (b : StreamBuilder) (item : String) : Except Error StreamBuilder :=
  match tokenStreamFromStr item with
  | Option.some tokens => .ok ⟨b.stream ++ tokens⟩
  | Option.none => .error (.pushParse item)

/-- Model of `StreamBuilder::ident`. -/
def StreamBuilder.ident (b : StreamBuilder) (i : Ident) : StreamBuilder :=
  ⟨b.stream ++ [TokenTree.ident i]⟩

/-- Model of `StreamBuilder::ident_str` (`Ident::new(.., Span::call_site())`). -/
def StreamBuilder.ident_str (b : StreamBuilder) (s : String) : StreamBuilder :=
  ⟨b.stream ++ [TokenTree.ident ⟨s, callSite⟩]⟩

/-- Model of `StreamBuilder::group`: run the callback against a fresh builder; on success
append exactly one `Group` token with the callback's tokens, on failure return
the error with the outer builder untouched (the returned builder is the state
of the Rust `&mut self` after the call). -/
def StreamBuilder.group (b : StreamBuilder) (delim : Delimiter)
    (inner : StreamBuilder → Except Error StreamBuilder) :
    StreamBuilder × Except Error Unit :=
  match inner StreamBuilder.new with
  | .error e => (b, .error e)
  | .ok stream => (⟨b.stream ++ [TokenTree.group delim stream.stream callSite]⟩, .ok ())

/-- Model of `StreamBuilder::punct` (`Spacing::Alone`). -/
def StreamBuilder.punct (b : StreamBuilder) (p : Char) : StreamBuilder :=
  ⟨b.stream ++ [TokenTree.punct ⟨p, Spacing.alone, callSite⟩]⟩

/-- Model of `StreamBuilder::puncts` (each char `Spacing::Joint`). -/
def StreamBuilder.puncts (b : StreamBuilder) (ps : String) : StreamBuilder :=
  ⟨b.stream ++ ps.data.map (fun c => TokenTree.punct ⟨c, Spacing.joint, callSite⟩)⟩

/-- Model of `StreamBuilder::lifetime`: joint apostrophe followed by the identifier. -/
def StreamBuilder.lifetime (b : StreamBuilder) (lt : Ident) : StreamBuilder :=
  ⟨b.stream ++ [TokenTree.punct ⟨quoteChar, Spacing.joint, callSite⟩, TokenTree.ident lt]⟩

/-- Model of `StreamBuilder::lifetime_str`. -/
def StreamBuilder.lifetime_str (b : StreamBuilder) (lt : String) : StreamBuilder :=
  ⟨b.stream ++ [TokenTree.punct ⟨quoteChar, Spacing.joint, callSite⟩,
    TokenTree.ident ⟨lt, callSite⟩]⟩

/-- Model of `StreamBuilder::lit_str` (string literal rendered with its quotes). -/
def StreamBuilder.lit_str (b : StreamBuilder) (s : String) : StreamBuilder :=
  ⟨b.stream ++ [TokenTree.lit ⟨"\"" ++ s ++ "\"", callSite⟩]⟩

/-- Model of `StreamBuilder::lit_usize`. -/
def StreamBuilder.lit_usize (b : StreamBuilder) (val : Nat) : StreamBuilder :=
  ⟨b.stream ++ [TokenTree.lit ⟨toString val, callSite⟩]⟩

/-! ## `src/parse/visibility.rs` -/

/-- Model of `Visibility`: the source collapses all visibility forms into this pair. -/
inductive Visibility where
  | default
  | pub
deriving DecidableEq, Repr

/-- Scoped-visibility head keywords recognized inside `pub(...)`. -/
def isVisScopeKeyword (s : String) : Bool :=
  s = "crate" || s = "self" || s = "super" || s = "in"

/-- Model of `Visibility::try_take`.  The source returns `Result` but never an error;
the model returns the visibility with the remaining input. -/
def Visibility.try_take (input : List TokenTree) : Visibility × List TokenTree :=
  match input with
  | (.ident i) :: rest =>
    if ident_eq i "pub" then
      -- check for a scoped form `pub ( crate | self | super | in .. )`
      match rest with
      | (.group d stream _) :: rest2 =>
        if d = Delimiter.parenthesis then
          match stream.head? with
          | Option.some (.ident inner) =>
            if isVisScopeKeyword inner.name then (Visibility.pub, rest2)
            else (Visibility.pub, rest)
          | _ => (Visibility.pub, rest)
        else (Visibility.pub, rest)
      | _ => (Visibility.pub, rest)
    else (Visibility.default, input)
  | (.group _ stream _) :: rest =>
    -- a `None`-delimited group wrapping exactly `pub` (e.g. from `bitflags!`)
    match stream with
    | [.ident i] =>
      if ident_eq i "pub" then
        match rest with
        | (.group _ _ _) :: rest2 => (Visibility.pub, rest2)
        | _ => (Visibility.pub, rest)
      else (Visibility.default, input)
    | _ => (Visibility.default, input)
  | _ => (Visibility.default, input)

/-! ## `src/parse/attributes.rs` -/

/-- Model of `AttributeLocation`. -/
inductive AttributeLocation where
  | container
  | variant
  | field
deriving DecidableEq, Repr

/-- Model of `Attribute`: the `#` punct together with the bracketed token group. -/
structure Attribute where
  location : AttributeLocation
  punct : Punct
  tokens : Group
deriving Repr

/-- Rust `Debug` rendering of a delimiter (message text only). -/
def Delimiter.debugStr : Delimiter → String
  | .parenthesis => "Parenthesis"
  | .brace => "Brace"
  | .bracket => "Bracket"
  | .none => "None"

/-- Loop of `Attribute::try_take`, fuelled; each iteration consumes at least the
leading `#`, so `input.length + 1` fuel always suffices. -/
def attributes_loop (location : AttributeLocation) :
    Nat → List Attribute → List TokenTree → Outcome (List Attribute × List TokenTree)
  | 0, _, _ => .diverge
  | fuel + 1, result, input =>
    match consume_punct_if input '#' with
    | (Option.none, _) => .ok (result, input)
    | (Option.some punct, rest) =>
      match rest with
      | (.group d stream sp) :: rest2 =>
        if d = Delimiter.bracket then
          attributes_loop location fuel (result ++ [⟨location, punct, ⟨d, stream, sp⟩⟩]) rest2
        else
          .err (.invalidRustSyntax sp ("[] bracket, got " ++ d.debugStr))
      | (.punct p) :: _ =>
        if p.ch = '#' then
          -- two #s in a row from empty doc-comment lines: ignore and continue
          attributes_loop location fuel result rest
        else
          .err (Error.wrong_token rest.head? "[] group or next # attribute")
      | _ =>
        .err (Error.wrong_token rest.head? "[] group or next # attribute")

/-- Model of `Attribute::try_take`. -/
def Attribute.try_take (location : AttributeLocation) (input : List TokenTree) :
    Outcome (List Attribute × List TokenTree) :=
  attributes_loop location (input.length + 1) [] input

/-! ## `src/parse/data_type.rs` -/

/-- Model of `DataType`: the two recognized declaration kinds. -/
inductive DataType where
  | enum
  | struct
deriving DecidableEq, Repr

/-- Model of `DataType::take`: consume the declaration keyword and name.  An unrecognized
keyword is `UnknownDataType` at the keyword's span; a missing keyword or name
is the generic `InvalidRustSyntax`. -/
def DataType.take (input : List TokenTree) : Outcome ((DataType × Ident) × List TokenTree) :=
  match consume_ident input with
  | Option.some (ident, rest) =>
    match (if ident.name = "struct" then Option.some DataType.struct
           else if ident.name = "enum" then Option.some DataType.enum
           else Option.none) with
    | Option.none => .err (.unknownDataType ident.span)
    | Option.some result =>
      match consume_ident rest with
      | Option.some (name, rest2) => .ok ((result, name), rest2)
      | Option.none => .err (Error.wrong_token rest.head? "ident")
  | Option.none => .err (Error.wrong_token input.head? "ident")

/-! ## `src/parse/generics.rs` -/

/-- A lifetime generic parameter, e.g. `struct Foo<'a> { .. }`. -/
structure Lifetime where
  ident : Ident
  constraint : List TokenTree
deriving Repr

/-- A simple (type) generic parameter, e.g. `struct Foo<F> { .. }`. -/
structure SimpleGeneric where
  ident : Ident
  constraints : List TokenTree
deriving Repr

/-- A const generic parameter, e.g. `struct Foo<const N: usize> { .. }`. -/
structure ConstGeneric where
  const_token : Ident
  ident : Ident
  constraints : List TokenTree
deriving Repr

/-- A single generic argument on a type. -/
inductive Generic where
  | lifetime (lt : Lifetime)
  | generic (gen : SimpleGeneric)
  | const (gen : ConstGeneric)
deriving Repr

/-- Model of `Generics(pub Vec<Generic>)`, kept as the underlying list (the source
derefs to the vector everywhere). -/
abbrev Generics := List Generic

/-- Model of `Lifetime::take`: apostrophe, name, then an optional `:`-led bound run
scanned up to `,` or `>`. -/
def Lifetime.take (input : List TokenTree) : Outcome (Lifetime × List TokenTree) := do
  let start ← assume_punct input.head? quoteChar
  let rest := input.tail
  match rest with
  | (.ident _) :: _ => do
    let i ← assume_ident rest.head?
    let rest1 := rest.tail
    match rest1 with
    | (.punct p) :: _ =>
      if p.ch = ':' then do
        let _ ← assume_punct rest1.head? ':'
        let (constraint, rest2) ← read_tokens_until_punct rest1.tail [',', '>']
        .ok (⟨i, constraint⟩, rest2)
      else .ok (⟨i, []⟩, rest1)
    | _ => .ok (⟨i, []⟩, rest1)
  | t :: _ => .err (.expectedIdent t.span)
  | [] => .err (.expectedIdent start.span)

/-- Model of `SimpleGeneric::take`: name, then an optional `:`-led bound run scanned up
to `>` or `,`. -/
def SimpleGeneric.take (input : List TokenTree) : Outcome (SimpleGeneric × List TokenTree) := do
  let i ← assume_ident input.head?
  let rest := input.tail
  match rest with
  | (.punct punct) :: _ =>
    if punct.ch = ':' then do
      let _ ← assume_punct rest.head? ':'
      let (constraints, rest2) ← read_tokens_until_punct rest.tail ['>', ',']
      .ok (⟨i, constraints⟩, rest2)
    else .ok (⟨i, []⟩, rest)
  | _ => .ok (⟨i, []⟩, rest)

/-- Model of `ConstGeneric::take`: assumes the fixed two-token `const <name>` prefix
(both via `assume_ident`, so a malformed prefix panics), then an optional
`:`-led constraint run. -/
def ConstGeneric.take (input : List TokenTree) : Outcome (ConstGeneric × List TokenTree) := do
  let const_token ← assume_ident input.head?
  let i ← assume_ident input.tail.head?
  let rest := input.tail.tail
  match rest with
  | (.punct punct) :: _ =>
    if punct.ch = ':' then do
      let _ ← assume_punct rest.head? ':'
      let (constraints, rest2) ← read_tokens_until_punct rest.tail ['>', ',']
      .ok (⟨const_token, i, constraints⟩, rest2)
    else .ok (⟨const_token, i, []⟩, rest)
  | _ => .ok (⟨const_token, i, []⟩, rest)

/-- Error message of the generics loop: `', > or an ident, got {x:?}`. -/
def genericsErrMsg (t : Option TokenTree) : String :=
  sq ++ ", > or an ident, got " ++ debugOptToken t

/-- Loop of `Generics::try_take` after the opening `<` was consumed, fuelled;
`open_span` is the span of that `<`.  Each iteration consumes at least one
token, so `input.length + 1` fuel always suffices (proved below). -/
def generics_loop :
    Nat → List Generic → Nat → List TokenTree → Outcome (List Generic × List TokenTree)
  | 0, _, _, _ => .diverge
  | fuel + 1, result, open_span, input =>
    match input with
    | (.punct punct) :: rest =>
      if punct.ch = quoteChar then do
        let (lt, rest1) ← Lifetime.take input
        let (_, rest2) := consume_punct_if rest1 ','
        generics_loop fuel (result ++ [Generic.lifetime lt]) open_span rest2
      else if punct.ch = '>' then
        -- assume_punct(input.next(), '>'), then break
        .ok (result, rest)
      else
        .err (.invalidRustSyntax punct.span (genericsErrMsg input.head?))
    | (.ident i) :: _ =>
      if ident_eq i "const" then do
        let (c, rest1) ← ConstGeneric.take input
        let (_, rest2) := consume_punct_if rest1 ','
        generics_loop fuel (result ++ [Generic.const c]) open_span rest2
      else do
        let (g, rest1) ← SimpleGeneric.take input
        let (_, rest2) := consume_punct_if rest1 ','
        generics_loop fuel (result ++ [Generic.generic g]) open_span rest2
    | x =>
      .err (.invalidRustSyntax ((x.head?.map TokenTree.span).getD open_span)
        (genericsErrMsg x.head?))

/-- Model of `Generics::try_take`: nothing is taken unless the input starts with `<`. -/
def Generics.try_take (input : List TokenTree) : Outcome (Option Generics × List TokenTree) :=
  match input with
  | (.punct punct) :: rest =>
    if punct.ch = '<' then
      -- assume_punct(input.next(), '<')
      (generics_loop (rest.length + 1) [] punct.span rest).bind
        (fun r => .ok (Option.some r.1, r.2))
    else .ok (Option.none, input)
  | _ => .ok (Option.none, input)

/-- Model of `Generic::is_lifetime`. -/
def Generic.is_lifetime : Generic → Bool
  | .lifetime _ => true
  | _ => false

/-- Model of `Generic::ident`. -/
def Generic.ident : Generic → Ident
  | .lifetime lt => lt.ident
  | .generic gen => gen.ident
  | .const gen => gen.ident

/-- Model of `Generic::as_lifetime`. -/
def Generic.as_lifetime : Generic → Option Lifetime
  | .lifetime lt => Option.some lt
  | _ => Option.none

/-- Model of `Generic::has_constraints` (const generics always have a constraint). -/
def Generic.has_constraints : Generic → Bool
  | .lifetime lt => !lt.constraint.isEmpty
  | .generic gen => !gen.constraints.isEmpty
  | .const _ => true

/-- Model of `Generic::constraints`. -/
def Generic.constraints : Generic → List TokenTree
  | .lifetime lt => lt.constraint
  | .generic gen => gen.constraints
  | .const gen => gen.constraints

/-- Model of `Generic::append_to_result_with_constraints`: the parameter (with lifetime
sigil or `const` keyword) followed by `: <constraints>` when present. -/
def Generic.append_to_result_with_constraints (g : Generic) (builder : StreamBuilder) :
    StreamBuilder :=
  let builder :=
    match g with
    | .lifetime lt => builder.lifetime lt.ident
    | .generic gen => builder.ident gen.ident
    | .const gen => (builder.ident gen.const_token).ident gen.ident
  if g.has_constraints then
    (builder.punct ':').extend g.constraints
  else builder

/-- Model of `Generics::has_lifetime`. -/
def Generics.has_lifetime (gs : Generics) : Bool :=
  gs.any Generic.is_lifetime

/-- Model of `Generics::impl_generics`: every parameter with its constraint list
attached, comma-separated inside angle brackets. -/
def Generics.impl_generics (gs : Generics) : StreamBuilder :=
  let result := StreamBuilder.new.punct '<'
  let result := gs.enum.foldl
    (fun result p =>
      let result := if p.1 > 0 then result.punct ',' else result
      p.2.append_to_result_with_constraints result) result
  result.punct '>'

/-- Model of `Generics::impl_generics_with_additional_lifetimes`. -/
def Generics.impl_generics_with_additional_lifetimes (gs : Generics) (lifetime : List String) :
    StreamBuilder :=
  let result := lifetime.enum.foldl
    (fun result p =>
      let result := result.punct (if p.1 = 0 then '<' else ',')
      let result := result.lifetime_str p.2
      let result :=
        if Generics.has_lifetime gs then
          ((gs.filterMap Generic.as_lifetime).enum).foldl
            (fun result q =>
              let result := result.punct (if q.1 = 0 then ':' else '+')
              result.lifetime q.2.ident) result
        else result
      gs.foldl (fun result generic =>
        generic.append_to_result_with_constraints (result.punct ',')) result)
    StreamBuilder.new
  result.punct '>'

/-- Model of `Generics::type_generics`: only the bare parameter names (lifetime sigil
retained), comma-separated inside angle brackets. -/
def Generics.type_generics (gs : Generics) : StreamBuilder :=
  let result := StreamBuilder.new.punct '<'
  let result := gs.enum.foldl
    (fun result p =>
      let result := if p.1 > 0 then result.punct ',' else result
      if p.2.is_lifetime then result.lifetime p.2.ident
      else result.ident p.2.ident) result
  result.punct '>'

/-- Model of `GenericConstraints`: an opaque captured `where`-clause token run. -/
structure GenericConstraints where
  constraints : List TokenTree
deriving Repr

/-- Model of `GenericConstraints::try_take`: nothing unless the input starts with the
`where` keyword; the clause body is scanned up to a `{` or `(` terminator. -/
def GenericConstraints.try_take (input : List TokenTree) :
    Outcome (Option GenericConstraints × List TokenTree) :=
  match input with
  | (.ident i) :: rest =>
    if ident_eq i "where" then
      (read_tokens_until_punct rest ['{', '(']).bind
        (fun r => .ok (Option.some ⟨r.1⟩, r.2))
    else .ok (Option.none, input)
  | _ => .ok (Option.none, input)

/-- Model of `GenericConstraints::where_clause`. -/
def GenericConstraints.where_clause (gc : GenericConstraints) : StreamBuilder :=
  (StreamBuilder.new.ident_str "where").extend gc.constraints

/-! ## `src/parse/body.rs` -/

/-- Model of `UnnamedField`: visibility, type token run, attributes. -/
structure UnnamedField where
  vis : Visibility
  type : List TokenTree
  attributes : List Attribute
deriving Repr

/-- The field shapes: tuple-like or struct-like. -/
inductive Fields where
  | tuple (fields : List UnnamedField)
  | struct (fields : List (Ident × UnnamedField))
deriving Repr

/-- Loop of `UnnamedField::parse_with_name`, fuelled: attributes, visibility,
name, `:`, type run to `,`, optional comma — until the group is exhausted. -/
def parse_with_name_loop :
    Nat → List (Ident × UnnamedField) → List TokenTree →
      Outcome (List (Ident × UnnamedField) × List TokenTree)
  | 0, _, _ => .diverge
  | fuel + 1, result, input => do
    let (attributes, input1) ← Attribute.try_take AttributeLocation.field input
    let (vis, input2) := Visibility.try_take input1
    match input2 with
    | (.ident _) :: _ => do
      let ident ← assume_ident input2.head?
      let input3 := input2.tail
      match input3 with
      | (.punct p) :: rest =>
        if p.ch = ':' then do
          let (type, input4) ← read_tokens_until_punct rest [',']
          let (_, input5) := consume_punct_if input4 ','
          parse_with_name_loop fuel (result ++ [(ident, ⟨vis, type, attributes⟩)]) input5
        else .err (Error.wrong_token input3.head? ":")
      | _ => .err (Error.wrong_token input3.head? ":")
    | x :: _ => .err (.invalidRustSyntax x.span ("ident or end of group, got " ++ x.debugStr))
    | [] => .ok (result, input2)

/-- Model of `UnnamedField::parse_with_name`. -/
def UnnamedField.parse_with_name (input : List TokenTree) :
    Outcome (List (Ident × UnnamedField) × List TokenTree) :=
  parse_with_name_loop (input.length + 1) [] input

/-- Loop of `UnnamedField::parse`, fuelled: attributes, visibility, type run to
`,`, optional comma — while tokens remain. -/
def unnamed_parse_loop :
    Nat → List UnnamedField → List TokenTree → Outcome (List UnnamedField × List TokenTree)
  | 0, _, _ => .diverge
  | fuel + 1, result, input =>
    match input with
    | [] => .ok (result, [])
    | _ => do
      let (attributes, input1) ← Attribute.try_take AttributeLocation.field input
      let (vis, input2) := Visibility.try_take input1
      let (type, input3) ← read_tokens_until_punct input2 [',']
      let (_, input4) := consume_punct_if input3 ','
      unnamed_parse_loop fuel (result ++ [⟨vis, type, attributes⟩]) input4

/-- Model of `UnnamedField::parse`. -/
def UnnamedField.parse (input : List TokenTree) :
    Outcome (List UnnamedField × List TokenTree) :=
  unnamed_parse_loop (input.length + 1) [] input

/-- Model of `StructBody`: `None` when the struct has no fields at all. -/
structure StructBody where
  fields : Option Fields
deriving Repr

/-- Model of `StructBody::take`: `;` means no fields (and is left unconsumed); a brace
group parses named fields, a parenthesis group tuple fields. -/
def StructBody.take (input : List TokenTree) : Outcome (StructBody × List TokenTree) :=
  match input with
  | (.group delim stream sp) :: rest =>
    match delim with
    | Delimiter.brace =>
      (UnnamedField.parse_with_name stream).bind
        (fun r => .ok (⟨Option.some (Fields.struct r.1)⟩, rest))
    | Delimiter.parenthesis =>
      (UnnamedField.parse stream).bind
        (fun r => .ok (⟨Option.some (Fields.tuple r.1)⟩, rest))
    | found =>
      .err (.invalidRustSyntax sp ("brace or parenthesis, found " ++ found.debugStr))
  | (.punct p) :: _ =>
    if p.ch = ';' then .ok (⟨Option.none⟩, input)
    else .err (Error.wrong_token input.head? "group or punct")
  | t => .err (Error.wrong_token t.head? "group or punct")

def I64_MIN : Int := -(2 ^ 63)

def I64_MAX : Int := 2 ^ 63 - 1

/-- Rust `str::parse::<i64>`: optional sign, at least one ASCII digit, value in
the signed 64-bit range. -/
def parse_i64 (s : String) : Option Int :=
  let cs := s.data
  let signed : Bool × List Char :=
    match cs with
    | c :: t => if c = '+' then (false, t) else if c = '-' then (true, t) else (false, cs)
    | [] => (false, [])
  let ds := signed.2
  if ds.isEmpty then Option.none
  else if ds.all Char.isDigit then
    let n : Nat := ds.foldl (fun acc c => acc * 10 + (c.toNat - 48)) 0
    let v : Int := if signed.1 then -(n : Int) else (n : Int)
    if I64_MIN ≤ v ∧ v ≤ I64_MAX then Option.some v else Option.none
  else Option.none

/-- Model of `Literal::i64_unsuffixed` (decimal rendering, call-site span). -/
def Literal.i64_unsuffixed (v : Int) : Lit := ⟨toString v, callSite⟩

/-- Rust `i64` negation, as performed on the parsed discriminant: negating
`i64::MIN` overflows, which panics in a debug build (the semantics this
development models throughout, matching the `debug_assert_eq!` treatment in
`assume_punct`; a release build would wrap to `i64::MIN`).  Every other value
negates exactly. -/
def i64_neg (v : Int) : Outcome Int :=
  if v = I64_MIN then .panic "attempt to negate with overflow"
  else .ok (-v)

/-- Model of `EnumVariant`: name, optional field shape, optional discriminant literal,
attributes. -/
structure EnumVariant where
  name : Ident
  fields : Option Fields
  value : Option Lit
  attributes : List Attribute
deriving Repr

/-- Model of `EnumBody`. -/
structure EnumBody where
  variants : List EnumVariant
deriving Repr

/-- Loop of `EnumBody::take` over the variant group's stream, fuelled: each
iteration parses one variant (attributes, name, optional fields group, optional
`= <literal>` or `= - <literal>` discriminant, optional comma). -/
def enum_variants_loop :
    Nat → List EnumVariant → List TokenTree → Outcome (List EnumVariant × List TokenTree)
  | 0, _, _ => .diverge
  | fuel + 1, variants, stream =>
    match stream with
    | [] => .ok (variants, [])
    | _ => do
      let (attributes, s1) ← Attribute.try_take AttributeLocation.variant stream
      match consume_ident s1 with
      | Option.none => .err (Error.wrong_token s1.head? "ident")
      | Option.some (ident, s2) => do
        let fr : Option Fields × List TokenTree ←
          (match s2 with
           | (.group delim gstream gsp) :: s2' =>
             (match delim with
              | Delimiter.brace =>
                (UnnamedField.parse_with_name gstream).bind
                  (fun r => .ok (Option.some (Fields.struct r.1), s2'))
              | Delimiter.parenthesis =>
                (UnnamedField.parse gstream).bind
                  (fun r => .ok (Option.some (Fields.tuple r.1), s2'))
              | delim =>
                .err (.invalidRustSyntax gsp ("Brace or parenthesis, found " ++ delim.debugStr)))
           | _ => .ok (Option.none, s2))
        let s3 := fr.2
        let vr : Option Lit × List TokenTree ←
          (match s3 with
           | (.punct p) :: s3' =>
             if p.ch = '=' then
               (match s3' with
                | (.lit lit) :: s3'' => .ok (Option.some lit, s3'')
                | (.punct m) :: s3'' =>
                  if m.ch = '-' then
                    (match s3'' with
                     | (.lit lit) :: rest3 =>
                       (match parse_i64 lit.text with
                        | Option.some val =>
                          (i64_neg val).bind (fun nval =>
                            .ok (Option.some (Literal.i64_unsuffixed nval), rest3))
                        | Option.none =>
                          .err (.custom "parse::<i64> failed" (Option.some lit.span)))
                     | t => .err (Error.wrong_token t.head? "literal"))
                  else .err (Error.wrong_token s3'.head? "literal")
                | t => .err (Error.wrong_token t.head? "literal"))
             else if p.ch = ',' then .ok (Option.none, s3)
             else .err (Error.wrong_token s3.head? "group, comma or =")
           | [] => .ok (Option.none, s3)
           | _ => .err (Error.wrong_token s3.head? "group, comma or ="))
        let (_, s5) := consume_punct_if vr.2 ','
        enum_variants_loop fuel (variants ++ [⟨ident, fr.1, vr.1, attributes⟩]) s5

/-- Model of `EnumBody::take`: `;` means no variants; otherwise a single group whose
stream holds the variants (the delimiter is not checked here). -/
def EnumBody.take (input : List TokenTree) : Outcome (EnumBody × List TokenTree) :=
  match input with
  | (.group _ stream _) :: rest =>
    (enum_variants_loop (stream.length + 1) [] stream).bind (fun r => .ok (⟨r.1⟩, rest))
  | (.punct p) :: _ =>
    if p.ch = ';' then .ok (⟨[]⟩, input)
    else .err (Error.wrong_token input.head? "group or ;")
  | t => .err (Error.wrong_token t.head? "group or ;")

/-! ## `src/parse/mod.rs` -/

/-- Model of `Parse`: the parsed declaration. -/
inductive Parse where
  | struct (attributes : List Attribute) (visibility : Visibility) (name : Ident)
      (generics : Option Generics) (generic_constraints : Option GenericConstraints)
      (body : StructBody)
  | enum (attributes : List Attribute) (visibility : Visibility) (name : Ident)
      (generics : Option Generics) (generic_constraints : Option GenericConstraints)
      (body : EnumBody)
deriving Repr

/-- Model of `Parse::new`: attributes, visibility, keyword and name, generics, where
clause, then the body of the matched declaration kind. -/
def Parse.new (input : List TokenTree) : Outcome Parse := do
  let (attributes, s1) ← Attribute.try_take AttributeLocation.container input
  let (visibility, s2) := Visibility.try_take s1
  let ((datatype, name), s3) ← DataType.take s2
  let (generics, s4) ← Generics.try_take s3
  let (generic_constraints, s5) ← GenericConstraints.try_take s4
  match datatype with
  | DataType.struct => do
    let (body, _) ← StructBody.take s5
    .ok (.struct attributes visibility name generics generic_constraints body)
  | DataType.enum => do
    let (body, _) ← EnumBody.take s5
    .ok (.enum attributes visibility name generics generic_constraints body)

/-! ## `src/generate/generator.rs` -/

/-- Model of `Generator`: the root scope, owning the output buffer. -/
structure Generator where
  name : Ident
  generics : Option Generics
  generic_constraints : Option GenericConstraints
  stream : StreamBuilder
deriving Repr

/-- Model of `Generator::new`. -/
def Generator.new (name : Ident) (generics : Option Generics)
    (generic_constraints : Option GenericConstraints) : Generator :=
  ⟨name, generics, generic_constraints, StreamBuilder.new⟩

/-- Model of `impl Parent for Generator`: `append` extends the output buffer. -/
def Generator.append (g : Generator) (builder : StreamBuilder) : Generator :=
  { g with stream := g.stream.append builder }

/-- Model of `Generator::finish`: hand the buffer to the caller (always succeeds). -/
def Generator.finish (g : Generator) : Outcome (List TokenTree) :=
  .ok g.stream.stream

/-! ## `src/generate/impl_for.rs` -/

/-- Model of `ImplFor`'s own fields; the `&mut P` parent is passed explicitly at the
flush sites in this model. -/
structure ImplFor where
  trait_name : String
  lifetimes : Option (List String)
  consts : List StreamBuilder
  custom_generic_constraints : Option GenericConstraints
  impl_types : List StreamBuilder
  fns : List (StreamBuilder × StreamBuilder)
deriving Repr

/-- Model of `ImplFor::new`. -/
def ImplFor.new (trait_name : String) : ImplFor :=
  ⟨trait_name, Option.none, [], Option.none, [], []⟩

/-- Model of `ImplFor::new_with_lifetimes`. -/
def ImplFor.new_with_lifetimes (trait_name : String) (lifetimes : List String) : ImplFor :=
  ⟨trait_name, Option.some lifetimes, [], Option.none, [], []⟩

/-- Model of `ImplFor::impl_type`: build `type <name> = <value> ;` and record it.  The
returned pair is the state of the Rust `&mut self` after the call together with
the `Result`: on a parse failure nothing is recorded. -/
def ImplFor.impl_type (s : ImplFor) (name value : String) : ImplFor × Except Error Unit :=
  match (StreamBuilder.new.ident_str "type").push_parsed name with
  | .error e => (s, .error e)
  | .ok b =>
    match (b.punct '=').push_parsed value with
    | .error e => (s, .error e)
    | .ok b =>
      let builder := b.punct ';'
      ({ s with impl_types := s.impl_types ++ [builder] }, .ok ())

/-- Panic message of `Result::unwrap` on an error. -/
def unwrapErrMsg : String := "called `Result::unwrap()` on an `Err` value"

/-- Free function `append_lifetimes` from `src/generate/impl_for.rs`. -/
def append_lifetimes (builder : StreamBuilder) (lifetimes : List String) : StreamBuilder :=
  (lifetimes.enum.foldl
    (fun builder p => (builder.punct (if p.1 = 0 then '<' else ',')).lifetime_str p.2)
    builder).punct '>'

/-- Model of `ImplFor::generate_fn_definition`: the `impl .. for ..` header, reading the
parent's name, generics and constraints.  The `push_parsed(trait_name)` is
`.unwrap()`ed in the source, hence the panic on a parse failure. -/
def ImplFor.generate_fn_definition (s : ImplFor) (gen : Generator) (builder : StreamBuilder) :
    Outcome StreamBuilder :=
  let builder := builder.ident_str "impl"
  let builder :=
    match s.lifetimes with
    | Option.some lifetimes =>
      match gen.generics with
      | Option.some generics =>
        builder.append (Generics.impl_generics_with_additional_lifetimes generics lifetimes)
      | Option.none => append_lifetimes builder lifetimes
    | Option.none =>
      match gen.generics with
      | Option.some generics => builder.append (Generics.impl_generics generics)
      | Option.none => builder
  match builder.push_parsed s.trait_name with
  | .error _ => .panic unwrapErrMsg
  | .ok builder =>
    let builder :=
      match s.lifetimes with
      | Option.some lifetimes => append_lifetimes builder lifetimes
      | Option.none => builder
    let builder := (builder.ident_str "for").ident gen.name
    let builder :=
      match gen.generics with
      | Option.some generics => builder.append (Generics.type_generics generics)
      | Option.none => builder
    let builder :=
      match s.custom_generic_constraints with
      | Option.some gc => builder.append gc.where_clause
      | Option.none =>
        match gen.generic_constraints with
        | Option.some gc => builder.append gc.where_clause
        | Option.none => builder
    .ok builder

/-- The per-function part of `ImplFor`'s drop body: append the definition, then
a brace group holding the recorded body (`*body = fn_body`).  The callback
always succeeds, so the source's `.unwrap()` on it cannot fire; the error arm
is kept for shape only. -/
def append_fns_with_bodies (fns : List (StreamBuilder × StreamBuilder)) (builder : StreamBuilder) :
    Except Error StreamBuilder :=
  match fns with
  | [] => .ok builder
  | (fn_def, fn_body) :: rest =>
    let builder := builder.append fn_def
    match builder.group Delimiter.brace (fun _body => .ok fn_body) with
    | (builder, .ok _) => append_fns_with_bodies rest builder
    | (_, .error e) => .error e

/-- The builder that `impl Drop for ImplFor` flushes: the header followed by a
brace group holding impl types, consts, and functions, in that order.  The
outer group's `.unwrap()` is modelled as a panic. -/
def ImplFor.flush_builder (s : ImplFor) (gen : Generator) : Outcome StreamBuilder :=
  (s.generate_fn_definition gen StreamBuilder.new).bind (fun builder =>
    match builder.group Delimiter.brace (fun b0 =>
        append_fns_with_bodies s.fns
          (s.consts.foldl StreamBuilder.append
            (s.impl_types.foldl StreamBuilder.append b0))) with
    | (builder, .ok _) => .ok builder
    | (_, .error _) => .panic unwrapErrMsg)

/-- Model of `impl Drop for ImplFor`: when the thread is panicking, return without
flushing; otherwise build and append into the parent. -/
def ImplFor.drop (panicking : Bool) (s : ImplFor) (gen : Generator) : Outcome Generator :=
  if panicking then .ok gen
  else (s.flush_builder gen).bind (fun builder => .ok (gen.append builder))

/-! ## `src/generate/gen_struct.rs` -/

/-- Model of `StructType`. -/
inductive StructType where
  | named
  | unnamed
  | zst
deriving DecidableEq, Repr

/-- Model of `StructField`. -/
structure StructField where
  name : String
  vis : Visibility
  ty : String
deriving Repr

/-- Model of `GenStruct`'s own fields; the parent is passed explicitly at the flush
sites in this model. -/
structure GenStruct where
  name : Ident
  visibility : Visibility
  fields : List StructField
  additional : List StreamBuilder
  struct_type : StructType
deriving Repr

/-- Model of `GenStruct::new`: defaults to a named-field struct with default visibility. -/
def GenStruct.new (name : String) : GenStruct :=
  ⟨⟨name, callSite⟩, Visibility.default, [], [], StructType.named⟩

/-- Model of `GenStruct::make_zst`. -/
def GenStruct.make_zst (s : GenStruct) : GenStruct := { s with struct_type := StructType.zst }

/-- Model of `GenStruct::make_tuple`. -/
def GenStruct.make_tuple (s : GenStruct) : GenStruct :=
  { s with struct_type := StructType.unnamed }

/-- Model of `GenStruct::make_pub`. -/
def GenStruct.make_pub (s : GenStruct) : GenStruct := { s with visibility := Visibility.pub }

/-- Model of `GenStruct::add_field`. -/
def GenStruct.add_field (s : GenStruct) (name ty : String) : GenStruct :=
  { s with fields := s.fields ++ [⟨name, Visibility.default, ty⟩] }

/-- Model of `GenStruct::add_pub_field`. -/
def GenStruct.add_pub_field (s : GenStruct) (name ty : String) : GenStruct :=
  { s with fields := s.fields ++ [⟨name, Visibility.pub, ty⟩] }

/-- Named-field group callback of `GenStruct`'s drop:
`[pub] <name> : <ty> ,` for each field. -/
def gen_struct_named_fields : List StructField → StreamBuilder → Except Error StreamBuilder
  | [], b => .ok b
  | field :: rest, b =>
    let b := if field.vis = Visibility.pub then b.ident_str "pub" else b
    match ((b.ident_str field.name).punct ':').push_parsed field.ty with
    | .error e => .error e
    | .ok b => gen_struct_named_fields rest (b.punct ',')

/-- Tuple-field group callback of `GenStruct`'s drop: `[pub] <ty> ,` for each
field. -/
def gen_struct_tuple_fields : List StructField → StreamBuilder → Except Error StreamBuilder
  | [], b => .ok b
  | field :: rest, b =>
    let b := if field.vis = Visibility.pub then b.ident_str "pub" else b
    match b.push_parsed field.ty with
    | .error e => .error e
    | .ok b => gen_struct_tuple_fields rest (b.punct ',')

/-- The builder that `impl Drop for GenStruct` flushes: `[pub] struct <name>`
followed by the field group (or `;`), then any recorded `additional` builders.
The `.expect("Could not build struct")` calls are modelled as panics. -/
def GenStruct.flush_builder (s : GenStruct) : Outcome StreamBuilder :=
  let builder :=
    if s.visibility = Visibility.pub then StreamBuilder.new.ident_str "pub"
    else StreamBuilder.new
  let builder := (builder.ident_str "struct").ident s.name
  let br : Outcome StreamBuilder :=
    match s.struct_type with
    | StructType.named =>
      match builder.group Delimiter.brace (gen_struct_named_fields s.fields) with
      | (builder, .ok _) => .ok builder
      | (_, .error _) => .panic "Could not build struct"
    | StructType.unnamed =>
      match builder.group Delimiter.parenthesis (gen_struct_tuple_fields s.fields) with
      | (builder, .ok _) => .ok (builder.punct ';')
      | (_, .error _) => .panic "Could not build struct"
    | StructType.zst => .ok (builder.punct ';')
  br.bind (fun builder => .ok (s.additional.foldl StreamBuilder.append builder))

/-- Model of `impl Drop for GenStruct`: build and append into the parent.  Unlike
`ImplFor`'s drop, there is no `thread::panicking` guard in the source, so the
flush is unconditional. -/
def GenStruct.drop (s : GenStruct) (parent : Generator) : Outcome Generator :=
  (s.flush_builder).bind (fun builder => .ok (parent.append builder))

/-! ## Spec-side renderings for the generics claims

These two definitions follow the specification's words ("impl-position
generics render every parameter with its bound list attached; use-position
generics render only the bare names") and are compared against the source
renderings above. -/

/-- Spec-side bare rendering of one parameter: lifetime sigil retained, name
only, no bounds. -/
def bare_param_tokens (g : Generic) : List TokenTree :=
  if g.is_lifetime then
    [TokenTree.punct ⟨quoteChar, Spacing.joint, callSite⟩, TokenTree.ident g.ident]
  else [TokenTree.ident g.ident]

/-- Spec-side declaring rendering of one parameter: the parameter (with sigil
or `const` keyword) followed by `: <bounds>` when it has any. -/
def decl_param_tokens (g : Generic) : List TokenTree :=
  (match g with
   | .lifetime lt =>
     [TokenTree.punct ⟨quoteChar, Spacing.joint, callSite⟩, TokenTree.ident lt.ident]
   | .generic gen => [TokenTree.ident gen.ident]
   | .const gen => [TokenTree.ident gen.const_token, TokenTree.ident gen.ident]) ++
  (if g.has_constraints then
    TokenTree.punct ⟨':', Spacing.alone, callSite⟩ :: g.constraints
   else [])

/-- Spec-side use-position rendering: bare parameters, comma-separated, inside
angle brackets. -/
def type_generics_spec (gs : Generics) : List TokenTree :=
  [TokenTree.punct ⟨'<', Spacing.alone, callSite⟩] ++
    (List.intersperse [TokenTree.punct ⟨',', Spacing.alone, callSite⟩]
      (gs.map bare_param_tokens)).flatten ++
    [TokenTree.punct ⟨'>', Spacing.alone, callSite⟩]

/-- Spec-side impl-position rendering: declaring parameters (bounds attached),
comma-separated, inside angle brackets. -/
def impl_generics_spec (gs : Generics) : List TokenTree :=
  [TokenTree.punct ⟨'<', Spacing.alone, callSite⟩] ++
    (List.intersperse [TokenTree.punct ⟨',', Spacing.alone, callSite⟩]
      (gs.map decl_param_tokens)).flatten ++
    [TokenTree.punct ⟨'>', Spacing.alone, callSite⟩]

/-- Erase every constraint list from a generics list, keeping names and kinds. -/
def erase_bounds (g : Generic) : Generic :=
  match g with
  | .lifetime lt => .lifetime ⟨lt.ident, []⟩
  | .generic gen => .generic ⟨gen.ident, []⟩
  | .const gen => .const ⟨gen.const_token, gen.ident, []⟩

/-! ## Concrete inputs used by the claim theorems -/

/-- Token sequence of `fn foo() {}`. -/
def fn_foo_tokens : List TokenTree :=
  [.ident ⟨"fn", 1⟩, .ident ⟨"foo", 2⟩, .group Delimiter.parenthesis [] 3,
    .group Delimiter.brace [] 4]

/-- Token sequence of the malformed `struct Foo<(>`: the token after `<` is
neither a lifetime sigil, an identifier, nor `>`. -/
def struct_foo_angle_tokens : List TokenTree :=
  [.ident ⟨"struct", 1⟩, .ident ⟨"Foo", 2⟩, .punct ⟨'<', Spacing.alone, 3⟩,
    .punct ⟨'(', Spacing.alone, 4⟩, .punct ⟨'>', Spacing.alone, 5⟩]

/-- Token sequence of `struct Foo { bar : u16 , baz : String , }` (all spans
call-site, as produced by the builder). -/
def struct_foo_tokens : List TokenTree :=
  [.ident ⟨"struct", 0⟩, .ident ⟨"Foo", 0⟩,
    .group Delimiter.brace
      [.ident ⟨"bar", 0⟩, .punct ⟨':', Spacing.alone, 0⟩, .ident ⟨"u16", 0⟩,
        .punct ⟨',', Spacing.alone, 0⟩, .ident ⟨"baz", 0⟩, .punct ⟨':', Spacing.alone, 0⟩,
        .ident ⟨"String", 0⟩, .punct ⟨',', Spacing.alone, 0⟩] 0]

/-- Generics list `['a, T: Display]` (the type parameter carries a bound). -/
def generics_a_T_display : Generics :=
  [.lifetime ⟨⟨"a", 0⟩, []⟩, .generic ⟨⟨"T", 0⟩, [.ident ⟨"Display", 0⟩]⟩]

/-- Generics list `['a, T]` with no bounds. -/
def generics_a_T : Generics :=
  [.lifetime ⟨⟨"a", 0⟩, []⟩, .generic ⟨⟨"T", 0⟩, []⟩]

/-- Token sequence of `<'a,T>`. -/
def angle_bare_tokens : List TokenTree :=
  [.punct ⟨'<', Spacing.alone, 0⟩, .punct ⟨quoteChar, Spacing.joint, 0⟩, .ident ⟨"a", 0⟩,
    .punct ⟨',', Spacing.alone, 0⟩, .ident ⟨"T", 0⟩, .punct ⟨'>', Spacing.alone, 0⟩]

/-! ## Claim theorems -/

/-- C3: Building a named-field struct scope named `Foo` with fields
`[("bar","u16"), ("baz","String")]` and flushing appends to the parent exactly
the token sequence of `struct Foo { bar : u16 , baz : String , }`, and feeding
that token sequence back through the declaration parser reproduces a `Record`
(struct) body with the same field names `bar`, `baz`, in the same order, in the
same named-field shape. -/
theorem claim_C3 :
    GenStruct.drop (((GenStruct.new "Foo").add_field "bar" "u16").add_field "baz" "String")
        (Generator.new ⟨"Fooz", 0⟩ Option.none Option.none)
      = .ok ⟨⟨"Fooz", 0⟩, Option.none, Option.none, ⟨struct_foo_tokens⟩⟩
    ∧ Parse.new struct_foo_tokens
      = .ok (.struct [] Visibility.default ⟨"Foo", 0⟩ Option.none Option.none
          ⟨Option.some (Fields.struct
            [(⟨"bar", 0⟩, ⟨Visibility.default, [.ident ⟨"u16", 0⟩], []⟩),
              (⟨"baz", 0⟩, ⟨Visibility.default, [.ident ⟨"String", 0⟩], []⟩)])⟩) :=
  ⟨rfl, rfl⟩

/-- C10: At the public parsing interface, `struct Foo;` yields a body with no
fields shape at all (`fields = None`), while `struct Foo {}` yields an empty
named-field list and `struct Foo ()` yields an empty tuple list — the three
are distinguishable. -/
theorem claim_C10 :
    Parse.new [.ident ⟨"struct", 1⟩, .ident ⟨"Foo", 2⟩, .punct ⟨';', Spacing.alone, 3⟩]
      = .ok (.struct [] Visibility.default ⟨"Foo", 2⟩ Option.none Option.none ⟨Option.none⟩)
    ∧ Parse.new [.ident ⟨"struct", 1⟩, .ident ⟨"Foo", 2⟩, .group Delimiter.brace [] 3]
      = .ok (.struct [] Visibility.default ⟨"Foo", 2⟩ Option.none Option.none
          ⟨Option.some (Fields.struct [])⟩)
    ∧ Parse.new [.ident ⟨"struct", 1⟩, .ident ⟨"Foo", 2⟩, .group Delimiter.parenthesis [] 3]
      = .ok (.struct [] Visibility.default ⟨"Foo", 2⟩ Option.none Option.none
          ⟨Option.some (Fields.tuple [])⟩) :=
  ⟨rfl, rfl, rfl⟩

/-- C2 counterexample: on the input `( >` (scanning for terminator `,`), the
popped opening bracket `(` does not pair with the closing `>`, and the scan
panics via `assert_eq!` instead of returning a `MalformedSyntax`
(`InvalidRustSyntax`) error, contradicting the claim as stated. -/
theorem claim_C2_counterexample :
    read_tokens_until_punct
        [.punct ⟨'(', Spacing.alone, 1⟩, .punct ⟨'>', Spacing.alone, 2⟩] [',']
      = .panic (assertClosingMsg '>' '<')
    ∧ Outcome.is_invalid_rust_syntax (read_tokens_until_punct
        [.punct ⟨'(', Spacing.alone, 1⟩, .punct ⟨'>', Spacing.alone, 2⟩]
        [',']) = false :=
  ⟨rfl, rfl⟩

/-- C7 counterexample: the generics loop is not panic-free on every finite
input — on `< const >` the const-generic path calls `assume_ident` on `>` and
panics with the `unreachable!()` message. -/
theorem claim_C7_counterexample :
    Generics.try_take
        [.punct ⟨'<', Spacing.alone, 1⟩, .ident ⟨"const", 2⟩, .punct ⟨'>', Spacing.alone, 3⟩]
      = .panic unreachableMsg :=
  rfl

/-- C1 counterexample: an `ImplFor` scope whose `impl_type` append step fails
(the step itself records nothing) is nevertheless flushed into its parent when
dropped on the plain error-return path (`thread::panicking()` is false there),
so the parent's buffer — empty before the scope was opened — gains the scope's
five header tokens, contradicting the claim that it is left exactly as it was. -/
theorem claim_C1_counterexample :
    ((ImplFor.new "Bar").impl_type "A" "###").2 = Except.error (Error.pushParse "###")
    ∧ ((ImplFor.new "Bar").impl_type "A" "###").1 = ImplFor.new "Bar"
    ∧ (Generator.new ⟨"Foo", 0⟩ Option.none Option.none).stream.stream = []
    ∧ ImplFor.drop false (ImplFor.new "Bar")
        (Generator.new ⟨"Foo", 0⟩ Option.none Option.none)
      = .ok ⟨⟨"Foo", 0⟩, Option.none, Option.none,
          ⟨[.ident ⟨"impl", 0⟩, .ident ⟨"Bar", 0⟩, .ident ⟨"for", 0⟩, .ident ⟨"Foo", 0⟩,
            .group Delimiter.brace [] 0]⟩⟩ :=
  ⟨rfl, rfl, rfl, rfl⟩

/-- C6: a leading declaration keyword that is neither `struct` nor `enum`
makes `DataType::take` fail with `UnknownDataType` (`UnknownDeclarationKind`)
carrying that keyword's span — and concretely, `fn foo() {}` fed to the
declaration parser fails with `UnknownDataType` at the span of `fn`, not with
the generic `InvalidRustSyntax` (`MalformedSyntax`). -/
theorem claim_C6 :
    (∀ (input : List TokenTree) (k : String) (sp : Nat) (rest : List TokenTree),
      consume_ident input = Option.some (⟨k, sp⟩, rest) → k ≠ "struct" → k ≠ "enum" →
      DataType.take input = .err (.unknownDataType sp))
    ∧ Parse.new fn_foo_tokens = .err (.unknownDataType 1)
    ∧ Outcome.is_invalid_rust_syntax (Parse.new fn_foo_tokens) = false := by
  refine ⟨?_, rfl, rfl⟩
  intro input k sp rest h hk hk'
  simp [DataType.take, h, hk, hk']

/-- C6 witness: the universal part applied to the `fn foo() {}` token stream. -/
theorem claim_C6_witness :
    DataType.take fn_foo_tokens = .err (.unknownDataType 1) :=
  claim_C6.1 fn_foo_tokens "fn" 1
    [.ident ⟨"foo", 2⟩, .group Delimiter.parenthesis [] 3, .group Delimiter.brace [] 4]
    rfl (by decide) (by decide)

/-- C4: `StreamBuilder::group` is all-or-nothing — a failing construction
callback propagates its error and leaves the outer builder's token stream
unchanged, while a succeeding callback appends exactly one `Group` token
holding the callback's accumulated tokens. -/
theorem claim_C4 (outer : StreamBuilder) (delim : Delimiter)
    (inner : StreamBuilder → Except Error StreamBuilder) :
    (∀ e, inner StreamBuilder.new = .error e →
      outer.group delim inner = (outer, .error e))
    ∧ (∀ s, inner StreamBuilder.new = .ok s →
      outer.group delim inner
        = (⟨outer.stream ++ [TokenTree.group delim s.stream callSite]⟩, .ok ())
      ∧ (outer.group delim inner).1.stream.length = outer.stream.length + 1) := by
  constructor
  · intro e h
    simp [StreamBuilder.group, h]
  · intro s h
    refine ⟨?_, ?_⟩ <;> simp [StreamBuilder.group, h]

/-- C4 witness: the two cases at concrete callbacks — a failing callback
leaves `[x]` unchanged, a succeeding one appends one group holding `[y]`. -/
theorem claim_C4_witness :
    (StreamBuilder.new.ident_str "x").group Delimiter.brace
        (fun _ => Except.error (Error.custom "boom" Option.none))
      = (StreamBuilder.new.ident_str "x", Except.error (Error.custom "boom" Option.none))
    ∧ (StreamBuilder.new.ident_str "x").group Delimiter.parenthesis
        (fun b => Except.ok (b.ident_str "y"))
      = (⟨(StreamBuilder.new.ident_str "x").stream ++
          [TokenTree.group Delimiter.parenthesis
            (StreamBuilder.new.ident_str "y").stream callSite]⟩, Except.ok ()) :=
  ⟨(claim_C4 (StreamBuilder.new.ident_str "x") Delimiter.brace
      (fun _ => Except.error (Error.custom "boom" Option.none))).1
      (Error.custom "boom" Option.none) rfl,
    ((claim_C4 (StreamBuilder.new.ident_str "x") Delimiter.parenthesis
      (fun b => Except.ok (b.ident_str "y"))).2
      (StreamBuilder.new.ident_str "y") rfl).1⟩

/-- C1 (amended): the flush is skipped — leaving the parent untouched — only
when the construction path is unwinding from a panic (`thread::panicking`);
an append step that merely returns an error records nothing in the scope
(step atomicity), but on the plain error-return path the scope is still
flushed: dropping with the panicking flag clear appends the built stream to
the parent. -/
theorem claim_C1 :
    (∀ (s : ImplFor) (g : Generator), ImplFor.drop true s g = .ok g)
    ∧ (∀ (s : ImplFor) (n v : String) (s' : ImplFor) (e : Error),
        s.impl_type n v = (s', .error e) → s' = s)
    ∧ (∀ (s : ImplFor) (g : Generator) (b : StreamBuilder),
        s.flush_builder g = .ok b →
        ImplFor.drop false s g = .ok (g.append b)) := by
  refine ⟨fun s g => rfl, ?_, ?_⟩
  · intro s n v s' e h
    simp only [ImplFor.impl_type] at h
    split at h
    · exact (congrArg Prod.fst h).symm
    · split at h
      · exact (congrArg Prod.fst h).symm
      · simp at h
  · intro s g b h
    simp [ImplFor.drop, h, Outcome.bind]

/-- C1 witness: the three parts at concrete inputs — a failed `impl_type` step
leaves the scope unchanged, the non-panicking drop flushes the header tokens,
and the panicking drop returns the parent untouched. -/
theorem claim_C1_witness :
    ((ImplFor.new "Q").impl_type "A" "###").1 = ImplFor.new "Q"
    ∧ ImplFor.drop false (ImplFor.new "Q") (Generator.new ⟨"N", 0⟩ Option.none Option.none)
      = .ok ((Generator.new ⟨"N", 0⟩ Option.none Option.none).append
          ⟨[.ident ⟨"impl", 0⟩, .ident ⟨"Q", 0⟩, .ident ⟨"for", 0⟩, .ident ⟨"N", 0⟩,
            .group Delimiter.brace [] 0]⟩)
    ∧ ImplFor.drop true (ImplFor.new "Q") (Generator.new ⟨"N", 0⟩ Option.none Option.none)
      = .ok (Generator.new ⟨"N", 0⟩ Option.none Option.none) :=
  ⟨claim_C1.2.1 (ImplFor.new "Q") "A" "###" (ImplFor.new "Q") (Error.pushParse "###") rfl,
    claim_C1.2.2 (ImplFor.new "Q") (Generator.new ⟨"N", 0⟩ Option.none Option.none)
      ⟨[.ident ⟨"impl", 0⟩, .ident ⟨"Q", 0⟩, .ident ⟨"for", 0⟩, .ident ⟨"N", 0⟩,
        .group Delimiter.brace [] 0]⟩ rfl,
    claim_C1.1 (ImplFor.new "Q") (Generator.new ⟨"N", 0⟩ Option.none Option.none)⟩

/-- C5: with a `Generator` parent, flushing child scope A and then child scope
B leaves the parent's buffer holding the prior contents, then A's flushed
tokens, then B's flushed tokens — flush order equals the order in which the
sibling scopes were closed (which the exclusive parent borrow makes the
construction order). -/
theorem claim_C5 (g : Generator) (sA sB : ImplFor) (bA bB : StreamBuilder)
    (hA : sA.flush_builder g = .ok bA) (hB : sB.flush_builder g = .ok bB) :
    ImplFor.drop false sA g = .ok (g.append bA)
    ∧ ImplFor.drop false sB (g.append bA) = .ok ((g.append bA).append bB)
    ∧ ((g.append bA).append bB).stream.stream
      = g.stream.stream ++ bA.stream ++ bB.stream := by
  have hB' : sB.flush_builder (g.append bA) = .ok bB := by
    cases g
    exact hB
  refine ⟨?_, ?_, ?_⟩
  · simp [ImplFor.drop, hA, Outcome.bind]
  · simp [ImplFor.drop, hB', Outcome.bind]
  · simp [Generator.append, StreamBuilder.append, List.append_assoc]

/-- C5 witness: two sibling `ImplFor` scopes `A` and `B` under an empty parent
flush in order: the parent ends with A's five tokens followed by B's. -/
theorem claim_C5_witness :
    (((Generator.new ⟨"N", 0⟩ Option.none Option.none).append
        ⟨[.ident ⟨"impl", 0⟩, .ident ⟨"A", 0⟩, .ident ⟨"for", 0⟩, .ident ⟨"N", 0⟩,
          .group Delimiter.brace [] 0]⟩).append
        ⟨[.ident ⟨"impl", 0⟩, .ident ⟨"B", 0⟩, .ident ⟨"for", 0⟩, .ident ⟨"N", 0⟩,
          .group Delimiter.brace [] 0]⟩).stream.stream
      = (Generator.new ⟨"N", 0⟩ Option.none Option.none).stream.stream
        ++ [.ident ⟨"impl", 0⟩, .ident ⟨"A", 0⟩, .ident ⟨"for", 0⟩, .ident ⟨"N", 0⟩,
          .group Delimiter.brace [] 0]
        ++ [.ident ⟨"impl", 0⟩, .ident ⟨"B", 0⟩, .ident ⟨"for", 0⟩, .ident ⟨"N", 0⟩,
          .group Delimiter.brace [] 0] :=
  (claim_C5 (Generator.new ⟨"N", 0⟩ Option.none Option.none)
    (ImplFor.new "A") (ImplFor.new "B") _ _ rfl rfl).2.2

/-! ## Helper lemmas: outcome sequencing and scanner bounds -/

@[simp]
theorem Outcome.bind_eq {α β : Type} (x : Outcome α) (f : α → Outcome β) :
    x >>= f = Outcome.bind x f := rfl

@[simp]
theorem Outcome.bind_ok {α β : Type} (a : α) (f : α → Outcome β) :
    Outcome.bind (.ok a) f = f a := rfl

@[simp]
theorem Outcome.bind_err {α β : Type} (e : Error) (f : α → Outcome β) :
    Outcome.bind (.err e) f = .err e := rfl

@[simp]
theorem Outcome.bind_panic {α β : Type} (m : String) (f : α → Outcome β) :
    Outcome.bind (.panic m) f = .panic m := rfl

@[simp]
theorem Outcome.bind_diverge {α β : Type} (f : α → Outcome β) :
    Outcome.bind .diverge f = .diverge := rfl

/-- The bracket scan never exhausts anything: it is structurally recursive on
its input and cannot produce the fuel-exhaustion outcome. -/
theorem read_aux_no_diverge (ep : List Char) :
    ∀ (input res : List TokenTree) (stack : List Char),
      read_tokens_until_punct_aux ep res stack input ≠ Outcome.diverge := by
  intro input
  induction input with
  | nil =>
    intro res stack h
    simp [read_tokens_until_punct_aux] at h
  | cons t rest ih =>
    intro res stack h
    cases t with
    | punct p =>
      simp only [read_tokens_until_punct_aux] at h
      split at h
      · exact ih _ _ h
      · split at h
        · exact ih _ _ h
        · split at h
          · split at h
            · split at h
              · exact Outcome.noConfusion h
              · exact Outcome.noConfusion h
            · split at h
              · exact ih _ _ h
              · exact Outcome.noConfusion h
          · split at h
            · exact Outcome.noConfusion h
            · exact ih _ _ h
    | group d s sp =>
      simp only [read_tokens_until_punct_aux] at h
      split at h
      · split at h
        · exact Outcome.noConfusion h
        · exact ih _ _ h
      · exact ih _ _ h
    | ident i =>
      simp only [read_tokens_until_punct_aux] at h
      exact ih _ _ h
    | lit l =>
      simp only [read_tokens_until_punct_aux] at h
      exact ih _ _ h

/-- On success the bracket scan leaves a suffix of its input unconsumed. -/
theorem read_aux_rest_le (ep : List Char) :
    ∀ (input res : List TokenTree) (stack : List Char) (r rest : List TokenTree),
      read_tokens_until_punct_aux ep res stack input = .ok (r, rest) →
      rest.length ≤ input.length := by
  intro input
  induction input with
  | nil =>
    intro res stack r rest h
    simp only [read_tokens_until_punct_aux] at h
    cases h
    exact Nat.le_refl _
  | cons t tail ih =>
    intro res stack r rest h
    cases t with
    | punct p =>
      simp only [read_tokens_until_punct_aux] at h
      split at h
      · exact (ih _ _ _ _ h).trans (by simp)
      · split at h
        · exact (ih _ _ _ _ h).trans (by simp)
        · split at h
          · split at h
            · split at h
              · cases h; exact Nat.le_refl _
              · exact Outcome.noConfusion h
            · split at h
              · exact (ih _ _ _ _ h).trans (by simp)
              · exact Outcome.noConfusion h
          · split at h
            · cases h; exact Nat.le_refl _
            · exact (ih _ _ _ _ h).trans (by simp)
    | group d s sp =>
      simp only [read_tokens_until_punct_aux] at h
      split at h
      · split at h
        · cases h; exact Nat.le_refl _
        · exact (ih _ _ _ _ h).trans (by simp)
      · exact (ih _ _ _ _ h).trans (by simp)
    | ident i =>
      simp only [read_tokens_until_punct_aux] at h
      exact (ih _ _ _ _ h).trans (by simp)
    | lit l =>
      simp only [read_tokens_until_punct_aux] at h
      exact (ih _ _ _ _ h).trans (by simp)

/-- On success the bracket scan copied exactly the consumed prefix: the copied
run extends the accumulator by the tokens taken off the input. -/
theorem read_aux_consumes (ep : List Char) :
    ∀ (input res : List TokenTree) (stack : List Char) (r rest : List TokenTree),
      read_tokens_until_punct_aux ep res stack input = .ok (r, rest) →
      ∃ mid, r = res ++ mid ∧ input = mid ++ rest := by
  intro input
  induction input with
  | nil =>
    intro res stack r rest h
    simp only [read_tokens_until_punct_aux] at h
    cases h
    exact ⟨[], by simp, by simp⟩
  | cons t tail ih =>
    intro res stack r rest h
    have step :
        ∀ stack2, read_tokens_until_punct_aux ep (res ++ [t]) stack2 tail = .ok (r, rest) →
          ∃ mid, r = res ++ mid ∧ t :: tail = mid ++ rest := by
      intro stack2 h2
      obtain ⟨mid, hr, hin⟩ := ih (res ++ [t]) stack2 r rest h2
      exact ⟨t :: mid, by simp [hr], by simp [hin]⟩
    cases t with
    | punct p =>
      simp only [read_tokens_until_punct_aux] at h
      split at h
      · exact step _ h
      · split at h
        · exact step _ h
        · split at h
          · split at h
            · split at h
              · cases h; exact ⟨[], by simp, by simp⟩
              · exact Outcome.noConfusion h
            · split at h
              · exact step _ h
              · exact Outcome.noConfusion h
          · split at h
            · cases h; exact ⟨[], by simp, by simp⟩
            · exact step _ h
    | group d s sp =>
      simp only [read_tokens_until_punct_aux] at h
      split at h
      · split at h
        · cases h; exact ⟨[], by simp, by simp⟩
        · exact step _ h
      · exact step _ h
    | ident i =>
      simp only [read_tokens_until_punct_aux] at h
      exact step _ h
    | lit l =>
      simp only [read_tokens_until_punct_aux] at h
      exact step _ h

/-- Model of `consume_punct_if` consumes at most one token. -/
theorem consume_punct_if_le (input : List TokenTree) (c : Char) :
    (consume_punct_if input c).2.length ≤ input.length := by
  cases input with
  | nil => simp [consume_punct_if]
  | cons t rest =>
    cases t <;> simp only [consume_punct_if] <;> try simp
    split <;> simp

/-- Model of `Lifetime::take` never exhausts fuel, and on success consumes at least one
token. -/
theorem Lifetime_take_spec (input : List TokenTree) :
    match Lifetime.take input with
    | .ok (_, rest) => rest.length < input.length
    | .diverge => False
    | _ => True := by
  cases input with
  | nil => simp [Lifetime.take, assume_punct]
  | cons t tail =>
    cases t with
    | punct p =>
      by_cases hq : p.ch = quoteChar
      · cases tail with
        | nil => simp [Lifetime.take, assume_punct, hq]
        | cons t2 tail2 =>
          cases t2 with
          | ident i =>
            cases tail2 with
            | nil => simp [Lifetime.take, assume_punct, assume_ident, hq]
            | cons t3 tail3 =>
              cases t3 with
              | punct q =>
                by_cases hc : q.ch = ':'
                · cases hread : read_tokens_until_punct_aux [',', '>'] [] [] tail3 with
                  | ok v =>
                    obtain ⟨c4, rest4⟩ := v
                    have hle : rest4.length ≤ tail3.length :=
                      read_aux_rest_le _ _ _ _ _ _ hread
                    simp [Lifetime.take, assume_punct, assume_ident, hq, hc,
                      read_tokens_until_punct, hread]
                    omega
                  | err e =>
                    simp [Lifetime.take, assume_punct, assume_ident, hq, hc,
                      read_tokens_until_punct, hread]
                  | panic m =>
                    simp [Lifetime.take, assume_punct, assume_ident, hq, hc,
                      read_tokens_until_punct, hread]
                  | diverge =>
                    exact absurd hread (read_aux_no_diverge _ _ _ _)
                · simp [Lifetime.take, assume_punct, assume_ident, hq, hc]
              | ident j =>
                simp [Lifetime.take, assume_punct, assume_ident, hq]
              | lit l =>
                simp [Lifetime.take, assume_punct, assume_ident, hq]
              | group d s sp =>
                simp [Lifetime.take, assume_punct, assume_ident, hq]
          | punct q => simp [Lifetime.take, assume_punct, hq]
          | lit l => simp [Lifetime.take, assume_punct, hq]
          | group d s sp => simp [Lifetime.take, assume_punct, hq]
      · simp [Lifetime.take, assume_punct, hq]
    | ident i => simp [Lifetime.take, assume_punct]
    | lit l => simp [Lifetime.take, assume_punct]
    | group d s sp => simp [Lifetime.take, assume_punct]

/-- Model of `SimpleGeneric::take` never exhausts fuel, and on success consumes at least
one token. -/
theorem SimpleGeneric_take_spec (input : List TokenTree) :
    match SimpleGeneric.take input with
    | .ok (_, rest) => rest.length < input.length
    | .diverge => False
    | _ => True := by
  cases input with
  | nil => simp [SimpleGeneric.take, assume_ident]
  | cons t tail =>
    cases t with
    | ident i =>
      cases tail with
      | nil => simp [SimpleGeneric.take, assume_ident]
      | cons t2 tail2 =>
        cases t2 with
        | punct q =>
          by_cases hc : q.ch = ':'
          · cases hread : read_tokens_until_punct_aux ['>', ','] [] [] tail2 with
            | ok v =>
              obtain ⟨c3, rest3⟩ := v
              have hle : rest3.length ≤ tail2.length :=
                read_aux_rest_le _ _ _ _ _ _ hread
              simp [SimpleGeneric.take, assume_ident, assume_punct, hc,
                read_tokens_until_punct, hread]
              omega
            | err e =>
              simp [SimpleGeneric.take, assume_ident, assume_punct, hc,
                read_tokens_until_punct, hread]
            | panic m =>
              simp [SimpleGeneric.take, assume_ident, assume_punct, hc,
                read_tokens_until_punct, hread]
            | diverge =>
              exact absurd hread (read_aux_no_diverge _ _ _ _)
          · simp [SimpleGeneric.take, assume_ident, hc]
        | ident j => simp [SimpleGeneric.take, assume_ident]
        | lit l => simp [SimpleGeneric.take, assume_ident]
        | group d s sp => simp [SimpleGeneric.take, assume_ident]
    | punct p => simp [SimpleGeneric.take, assume_ident]
    | lit l => simp [SimpleGeneric.take, assume_ident]
    | group d s sp => simp [SimpleGeneric.take, assume_ident]

/-- Model of `ConstGeneric::take` never exhausts fuel, and on success consumes at least
one token. -/
theorem ConstGeneric_take_spec (input : List TokenTree) :
    match ConstGeneric.take input with
    | .ok (_, rest) => rest.length < input.length
    | .diverge => False
    | _ => True := by
  cases input with
  | nil => simp [ConstGeneric.take, assume_ident]
  | cons t tail =>
    cases t with
    | ident i =>
      cases tail with
      | nil => simp [ConstGeneric.take, assume_ident]
      | cons t2 tail2 =>
        cases t2 with
        | ident j =>
          cases tail2 with
          | nil => simp [ConstGeneric.take, assume_ident]
          | cons t3 tail3 =>
            cases t3 with
            | punct q =>
              by_cases hc : q.ch = ':'
              · cases hread : read_tokens_until_punct_aux ['>', ','] [] [] tail3 with
                | ok v =>
                  obtain ⟨c4, rest4⟩ := v
                  have hle : rest4.length ≤ tail3.length :=
                    read_aux_rest_le _ _ _ _ _ _ hread
                  simp [ConstGeneric.take, assume_ident, assume_punct, hc,
                    read_tokens_until_punct, hread]
                  omega
                | err e =>
                  simp [ConstGeneric.take, assume_ident, assume_punct, hc,
                    read_tokens_until_punct, hread]
                | panic m =>
                  simp [ConstGeneric.take, assume_ident, assume_punct, hc,
                    read_tokens_until_punct, hread]
                | diverge =>
                  exact absurd hread (read_aux_no_diverge _ _ _ _)
              · simp [ConstGeneric.take, assume_ident, hc]
            | ident k => simp [ConstGeneric.take, assume_ident]
            | lit l => simp [ConstGeneric.take, assume_ident]
            | group d s sp => simp [ConstGeneric.take, assume_ident]
        | punct q => simp [ConstGeneric.take, assume_ident]
        | lit l => simp [ConstGeneric.take, assume_ident]
        | group d s sp => simp [ConstGeneric.take, assume_ident]
    | punct p => simp [ConstGeneric.take, assume_ident]
    | lit l => simp [ConstGeneric.take, assume_ident]
    | group d s sp => simp [ConstGeneric.take, assume_ident]

/-- Fuel sufficiency for the generics loop: with any fuel exceeding the input
length, the loop never exhausts it — the loop terminates on every finite
input. -/
theorem generics_loop_fuel :
    ∀ (fuel : Nat) (input : List TokenTree) (res : List Generic) (sp : Nat),
      input.length < fuel → generics_loop fuel res sp input ≠ .diverge := by
  intro fuel
  induction fuel with
  | zero =>
    intro input res sp hlen
    omega
  | succ fuel ih =>
    intro input res sp hlen h
    cases input with
    | nil => simp [generics_loop] at h
    | cons t rest =>
      cases t with
      | punct p =>
        by_cases hq : p.ch = quoteChar
        · have hspec := Lifetime_take_spec (TokenTree.punct p :: rest)
          cases htake : Lifetime.take (TokenTree.punct p :: rest) with
          | ok v =>
            obtain ⟨lt, rest1⟩ := v
            rw [htake] at hspec
            simp only [generics_loop, hq, if_pos, htake, Outcome.bind_eq,
              Outcome.bind_ok] at h
            have hle := consume_punct_if_le rest1 ','
            refine ih _ _ _ ?_ h
            simp only [List.length_cons] at hspec hlen
            omega
          | err e =>
            rw [htake] at hspec
            simp [generics_loop, hq, htake] at h
          | panic m =>
            rw [htake] at hspec
            simp [generics_loop, hq, htake] at h
          | diverge =>
            rw [htake] at hspec
            exact hspec
        · by_cases hgt : p.ch = '>'
          · have hne : ('>' : Char) ≠ quoteChar := by decide
            simp [generics_loop, hq, hgt, hne] at h
          · simp [generics_loop, hq, hgt] at h
      | ident i =>
        by_cases hconst : ident_eq i "const"
        · have hspec := ConstGeneric_take_spec (TokenTree.ident i :: rest)
          cases htake : ConstGeneric.take (TokenTree.ident i :: rest) with
          | ok v =>
            obtain ⟨c, rest1⟩ := v
            rw [htake] at hspec
            simp only [generics_loop, hconst, if_pos, htake, Outcome.bind_eq,
              Outcome.bind_ok] at h
            have hle := consume_punct_if_le rest1 ','
            refine ih _ _ _ ?_ h
            simp only [List.length_cons] at hspec hlen
            omega
          | err e =>
            rw [htake] at hspec
            simp [generics_loop, hconst, htake] at h
          | panic m =>
            rw [htake] at hspec
            simp [generics_loop, hconst, htake] at h
          | diverge =>
            rw [htake] at hspec
            exact hspec
        · have hspec := SimpleGeneric_take_spec (TokenTree.ident i :: rest)
          cases htake : SimpleGeneric.take (TokenTree.ident i :: rest) with
          | ok v =>
            obtain ⟨g, rest1⟩ := v
            rw [htake] at hspec
            simp only [generics_loop, hconst, if_neg, htake, Outcome.bind_eq,
              Outcome.bind_ok] at h
            have hle := consume_punct_if_le rest1 ','
            refine ih _ _ _ ?_ h
            simp only [List.length_cons] at hspec hlen
            omega
          | err e =>
            rw [htake] at hspec
            simp [generics_loop, hconst, htake] at h
          | panic m =>
            rw [htake] at hspec
            simp [generics_loop, hconst, htake] at h
          | diverge =>
            rw [htake] at hspec
            exact hspec
      | lit l => simp [generics_loop] at h
      | group d s gsp => simp [generics_loop] at h

/-- C2 (amended): when a closing bracket punctuation is encountered and the
popped opening bracket does not pair with it, the scan aborts by panicking
(the `assert_eq!`) with a message naming the found closer and the expected
matching opener — it does not return a `MalformedSyntax` error.
`MalformedSyntax` (`InvalidRustSyntax`) is returned for a closing bracket met
with an empty bracket stack that is not in the terminator set. -/
theorem claim_C2 :
    (∀ (ep : List Char) (res : List TokenTree) (b : Char) (bs : List Char)
        (c : Char) (spc : Spacing) (sp : Nat) (rest : List TokenTree) (index : Nat),
      check_if_arrow res c = false →
      c ∉ OPEN_BRACKETS →
      position CLOSING_BRACKETS c = Option.some index →
      OPEN_BRACKETS.getD index ' ' ≠ b →
      read_tokens_until_punct_aux ep res (b :: bs) (.punct ⟨c, spc, sp⟩ :: rest)
        = .panic (assertClosingMsg c (OPEN_BRACKETS.getD index ' ')))
    ∧ (∀ (ep : List Char) (res : List TokenTree)
        (c : Char) (spc : Spacing) (sp : Nat) (rest : List TokenTree) (index : Nat),
      check_if_arrow res c = false →
      c ∉ OPEN_BRACKETS →
      position CLOSING_BRACKETS c = Option.some index →
      c ∉ ep →
      read_tokens_until_punct_aux ep res [] (.punct ⟨c, spc, sp⟩ :: rest)
        = .err (.invalidRustSyntax sp (oneOfMsg ep c))) := by
  constructor
  · intro ep res b bs c spc sp rest index h1 h2 h3 h4
    simp [read_tokens_until_punct_aux, h1, h2, h3]
    intro hb
    exact absurd ((List.getD_eq_getElem?_getD _ _ _).trans hb) h4
  · intro ep res c spc sp rest index h1 h2 h3 h4
    simp [read_tokens_until_punct_aux, h1, h2, h3, h4]

/-- C2 witness: the mismatch case at `(` against `>` (panic), and the
empty-stack case at `)` against terminator set `[,]` (syntax error). -/
theorem claim_C2_witness :
    read_tokens_until_punct_aux [','] [] ['('] [.punct ⟨'>', Spacing.alone, 2⟩]
      = .panic (assertClosingMsg '>' (OPEN_BRACKETS.getD 0 ' '))
    ∧ read_tokens_until_punct_aux [','] [] [] [.punct ⟨')', Spacing.alone, 3⟩]
      = .err (.invalidRustSyntax 3 (oneOfMsg [','] ')')) :=
  ⟨claim_C2.1 [','] [] '(' [] '>' Spacing.alone 2 [] 0 (by decide) (by decide) rfl (by decide),
    claim_C2.2 [','] [] ')' Spacing.alone 3 [] 1 (by decide) (by decide) rfl (by decide)⟩

/-- C7 (amended): the malformed `struct Foo<(>` fails with `MalformedSyntax`
(`InvalidRustSyntax`) and the parse terminates; the generics loop terminates
on every finite input (any fuel above the input length is never exhausted) and
the bracket scan consumes exactly a prefix of its input.  ("Never panicking"
does not hold — see the counterexample.) -/
theorem claim_C7 :
    Parse.new struct_foo_angle_tokens
      = .err (.invalidRustSyntax 4
          (genericsErrMsg (Option.some (.punct ⟨'(', Spacing.alone, 4⟩))))
    ∧ Outcome.is_invalid_rust_syntax (Parse.new struct_foo_angle_tokens) = true
    ∧ (∀ (fuel : Nat) (input : List TokenTree) (res : List Generic) (sp : Nat),
        input.length < fuel → generics_loop fuel res sp input ≠ .diverge)
    ∧ (∀ (input : List TokenTree) (ep : List Char) (r rest : List TokenTree),
        read_tokens_until_punct input ep = .ok (r, rest) → input = r ++ rest) := by
  refine ⟨rfl, rfl, generics_loop_fuel, ?_⟩
  intro input ep r rest h
  obtain ⟨mid, hr, hin⟩ := read_aux_consumes ep input [] [] r rest h
  rw [List.nil_append] at hr
  rw [hr]
  exact hin

/-- C7 witness: the termination bound applied at a concrete fuel and input,
and the prefix property of the scan at a concrete stop. -/
theorem claim_C7_witness :
    generics_loop 1 [] 0 [] ≠ .diverge
    ∧ [TokenTree.punct ⟨',', Spacing.alone, 9⟩]
      = [] ++ [TokenTree.punct ⟨',', Spacing.alone, 9⟩] :=
  ⟨claim_C7.2.2.1 1 [] [] 0 (by decide),
    claim_C7.2.2.2 [.punct ⟨',', Spacing.alone, 9⟩] [','] []
      [.punct ⟨',', Spacing.alone, 9⟩] rfl⟩

set_option maxHeartbeats 2000000 in
/-- C9: an enum variant with discriminant `= - <literal>` parses to a value
reconstructed by parsing the literal's text as a signed 64-bit integer and
re-encoding its `i64` negation as an unsuffixed literal.  A literal written as
digits parses to a non-negative value, so its negation never overflows (the
hypothesis `0 ≤ val` captures exactly that domain); a hostile signed literal
text parsing to `i64::MIN` instead panics on the overflowing negation, as the
third conjunct shows.  A plain `= <literal>` discriminant is captured verbatim
(the very literal token, span included). -/
theorem claim_C9 (name : Ident) (lit : Lit) (s1 s2 gsp : Nat) (val : Int)
    (h : parse_i64 lit.text = Option.some val) (hnn : 0 ≤ val) :
    EnumBody.take [.group Delimiter.brace
        [.ident name, .punct ⟨'=', Spacing.alone, s1⟩, .punct ⟨'-', Spacing.alone, s2⟩,
          .lit lit] gsp]
      = .ok (⟨[⟨name, Option.none, Option.some (Literal.i64_unsuffixed (-val)), []⟩]⟩, [])
    ∧ EnumBody.take [.group Delimiter.brace
        [.ident name, .punct ⟨'=', Spacing.alone, s1⟩, .lit lit] gsp]
      = .ok (⟨[⟨name, Option.none, Option.some lit, []⟩]⟩, [])
    ∧ (∀ lit2 : Lit, parse_i64 lit2.text = Option.some I64_MIN →
        EnumBody.take [.group Delimiter.brace
            [.ident name, .punct ⟨'=', Spacing.alone, s1⟩, .punct ⟨'-', Spacing.alone, s2⟩,
              .lit lit2] gsp]
          = .panic "attempt to negate with overflow") := by
  have hne : val ≠ I64_MIN := by
    intro he
    rw [he] at hnn
    norm_num [I64_MIN] at hnn
  refine ⟨?_, ?_, ?_⟩
  · simp [EnumBody.take, enum_variants_loop, Attribute.try_take, attributes_loop,
      consume_punct_if, consume_ident, h, i64_neg, hne]
  · simp [EnumBody.take, enum_variants_loop, Attribute.try_take, attributes_loop,
      consume_punct_if, consume_ident]
  · intro lit2 h2
    simp [EnumBody.take, enum_variants_loop, Attribute.try_take, attributes_loop,
      consume_punct_if, consume_ident, h2, i64_neg]

set_option maxHeartbeats 1000000 in
/-- C9 witness: `Bar = -1` parses to the literal `-1`, `Bar = 1` keeps the
written literal token, and the overflowing `Bar = - (-9223372036854775808)`
discriminant panics on the `i64` negation. -/
theorem claim_C9_witness :
    EnumBody.take [.group Delimiter.brace
        [.ident ⟨"Bar", 7⟩, .punct ⟨'=', Spacing.alone, 8⟩, .punct ⟨'-', Spacing.alone, 9⟩,
          .lit ⟨"1", 10⟩] 6]
      = .ok (⟨[⟨⟨"Bar", 7⟩, Option.none,
          Option.some (Literal.i64_unsuffixed (-(1 : Int))), []⟩]⟩, [])
    ∧ EnumBody.take [.group Delimiter.brace
        [.ident ⟨"Bar", 7⟩, .punct ⟨'=', Spacing.alone, 8⟩, .lit ⟨"1", 10⟩] 6]
      = .ok (⟨[⟨⟨"Bar", 7⟩, Option.none, Option.some ⟨"1", 10⟩, []⟩]⟩, [])
    ∧ EnumBody.take [.group Delimiter.brace
        [.ident ⟨"Bar", 7⟩, .punct ⟨'=', Spacing.alone, 8⟩, .punct ⟨'-', Spacing.alone, 9⟩,
          .lit ⟨"-9223372036854775808", 10⟩] 6]
      = .panic "attempt to negate with overflow" :=
  ⟨(claim_C9 ⟨"Bar", 7⟩ ⟨"1", 10⟩ 8 9 6 1 (by decide) (by decide)).1,
    (claim_C9 ⟨"Bar", 7⟩ ⟨"1", 10⟩ 8 9 6 1 (by decide) (by decide)).2.1,
    (claim_C9 ⟨"Bar", 7⟩ ⟨"1", 10⟩ 8 9 6 1 (by decide) (by decide)).2.2
      ⟨"-9223372036854775808", 10⟩ (by decide)⟩

/-! ## Helper lemmas for the generics renderings -/

/-- The declaring append of one parameter equals extending by its spec-side
declaring tokens. -/
theorem append_decl (g : Generic) (b : StreamBuilder) :
    g.append_to_result_with_constraints b = b.extend (decl_param_tokens g) := by
  cases g with
  | lifetime lt =>
    by_cases hc : lt.constraint.isEmpty <;>
      simp [Generic.append_to_result_with_constraints, decl_param_tokens,
        Generic.has_constraints, Generic.constraints, hc, StreamBuilder.lifetime,
        StreamBuilder.extend, StreamBuilder.punct, List.append_assoc]
  | generic gen =>
    by_cases hc : gen.constraints.isEmpty <;>
      simp [Generic.append_to_result_with_constraints, decl_param_tokens,
        Generic.has_constraints, Generic.constraints, hc, StreamBuilder.ident,
        StreamBuilder.extend, StreamBuilder.punct, List.append_assoc]
  | const gen =>
    simp [Generic.append_to_result_with_constraints, decl_param_tokens,
      Generic.has_constraints, Generic.constraints, StreamBuilder.ident,
      StreamBuilder.extend, StreamBuilder.punct, List.append_assoc]

/-- The bare append of one parameter equals extending by its spec-side bare
tokens. -/
theorem append_bare (g : Generic) (b : StreamBuilder) :
    (if g.is_lifetime then b.lifetime g.ident else b.ident g.ident)
      = b.extend (bare_param_tokens g) := by
  cases g <;>
    simp [Generic.is_lifetime, bare_param_tokens, Generic.ident, StreamBuilder.lifetime,
      StreamBuilder.ident, StreamBuilder.extend]

/-- Folding a comma-separating render step over an enumeration starting past
zero appends a comma before every element. -/
theorem render_fold_from (elem : Generic → List TokenTree)
    (f : StreamBuilder → Nat × Generic → StreamBuilder)
    (hf : ∀ (b : StreamBuilder) (n : Nat) (g : Generic), 0 < n →
      f b (n, g) = b.extend (TokenTree.punct ⟨',', Spacing.alone, callSite⟩ :: elem g)) :
    ∀ (gs : List Generic) (n : Nat) (b : StreamBuilder), 0 < n →
      (List.enumFrom n gs).foldl f b
        = b.extend
            ((gs.map (fun g => TokenTree.punct ⟨',', Spacing.alone, callSite⟩ :: elem g)).flatten)
    := by
  intro gs
  induction gs with
  | nil =>
    intro n b hn
    cases b
    simp [StreamBuilder.extend]
  | cons g rest ih =>
    intro n b hn
    rw [List.enumFrom_cons]
    simp only [List.foldl_cons]
    rw [hf b n g hn, ih (n + 1) _ (by omega)]
    simp [StreamBuilder.extend, List.append_assoc]

/-- Flattening an interspersed list of runs: the head run, then each further
run prefixed by the separator. -/
theorem intersperse_flatten (sep a : List TokenTree) (l : List (List TokenTree)) :
    (List.intersperse sep (a :: l)).flatten = a ++ (l.map (fun x => sep ++ x)).flatten := by
  induction l generalizing a with
  | nil => simp
  | cons b t ih =>
    rw [List.intersperse_cons_cons]
    simp only [List.flatten_cons, List.map_cons]
    rw [ih b]
    simp [List.append_assoc]

/-- The comma-separating fold of `impl_generics`, specialized. -/
theorem impl_fold (rest : List Generic) (n : Nat) (hn : 0 < n) (b : StreamBuilder) :
    List.foldl (fun result p =>
        p.2.append_to_result_with_constraints (if p.1 > 0 then result.punct ',' else result))
      b (List.enumFrom n rest)
    = b.extend ((rest.map (fun g =>
        TokenTree.punct ⟨',', Spacing.alone, callSite⟩ :: decl_param_tokens g)).flatten) :=
  render_fold_from decl_param_tokens _ (fun b n g hn => by
    simp [hn, append_decl, StreamBuilder.punct, StreamBuilder.extend]) rest n b hn

/-- The source impl-position rendering equals the spec-side rendering: every
parameter is emitted together with its constraint list. -/
theorem impl_generics_eq_spec (gs : Generics) :
    (Generics.impl_generics gs).stream = impl_generics_spec gs := by
  cases gs with
  | nil => rfl
  | cons g rest =>
    simp only [Generics.impl_generics, List.enum, List.enumFrom_cons, List.foldl_cons,
      Nat.zero_add]
    rw [impl_fold rest 1 (by omega)]
    rw [show (if 0 > 0 then (StreamBuilder.new.punct '<').punct ','
        else StreamBuilder.new.punct '<') = StreamBuilder.new.punct '<' from rfl]
    rw [append_decl]
    simp [impl_generics_spec, intersperse_flatten, StreamBuilder.punct, StreamBuilder.extend,
      StreamBuilder.new, List.map_map, Function.comp_def, List.append_assoc]

/-- The comma-separating fold of `type_generics`, specialized. -/
theorem type_fold (rest : List Generic) (n : Nat) (hn : 0 < n) (b : StreamBuilder) :
    List.foldl (fun result p =>
        if p.2.is_lifetime then (if p.1 > 0 then result.punct ',' else result).lifetime p.2.ident
        else (if p.1 > 0 then result.punct ',' else result).ident p.2.ident)
      b (List.enumFrom n rest)
    = b.extend ((rest.map (fun g =>
        TokenTree.punct ⟨',', Spacing.alone, callSite⟩ :: bare_param_tokens g)).flatten) :=
  render_fold_from bare_param_tokens _ (fun b n g hn => by
    simp only [hn, if_pos, gt_iff_lt]
    rw [append_bare]
    simp [StreamBuilder.punct, StreamBuilder.extend]) rest n b hn

/-- The source use-position rendering equals the spec-side rendering: only the
bare names, lifetime sigil retained, every bound dropped. -/
theorem type_generics_eq_spec (gs : Generics) :
    (Generics.type_generics gs).stream = type_generics_spec gs := by
  cases gs with
  | nil => rfl
  | cons g rest =>
    simp only [Generics.type_generics, List.enum, List.enumFrom_cons, List.foldl_cons,
      Nat.zero_add]
    rw [show (if 0 > 0 then (StreamBuilder.new.punct '<').punct ','
        else StreamBuilder.new.punct '<') = StreamBuilder.new.punct '<' from rfl]
    rw [type_fold rest 1 (by omega)]
    rw [append_bare]
    simp [type_generics_spec, intersperse_flatten, StreamBuilder.punct, StreamBuilder.extend,
      StreamBuilder.new, List.map_map, Function.comp_def, List.append_assoc]

/-- Bare rendering ignores the bound lists. -/
theorem bare_erase (g : Generic) : bare_param_tokens (erase_bounds g) = bare_param_tokens g := by
  cases g <;> rfl

/-- C8 counterexample: for generics `['a, T: Display]` the impl-position
rendering is not the token sequence `<'a,T>` (it attaches the bound, yielding
`<'a,T:Display>`), so "both renderings yield `<'a,T>` even when T carried
bounds" fails as stated; the use-position rendering does yield `<'a,T>`. -/
theorem claim_C8_counterexample :
    (Generics.impl_generics generics_a_T_display).stream ≠ angle_bare_tokens
    ∧ (Generics.type_generics generics_a_T_display).stream = angle_bare_tokens := by
  constructor
  · intro h
    have h8 : (Generics.impl_generics generics_a_T_display).stream.length = 8 := rfl
    have h6 : angle_bare_tokens.length = 6 := rfl
    rw [h] at h8
    omega
  · rfl

/-- C8 (amended): impl-position rendering emits every parameter together with
its constraint list attached, use-position rendering emits only the bare
parameter names (lifetime sigil retained, every bound dropped, hence invariant
under erasing bounds); for generics `['a, T]` both renderings yield `<'a,T>`
when `T` carries no bounds, and when `T` carries bounds use-position still
yields `<'a,T>` while impl-position attaches the bound list. -/
theorem claim_C8 :
    (∀ gs : Generics, (Generics.impl_generics gs).stream = impl_generics_spec gs)
    ∧ (∀ gs : Generics, (Generics.type_generics gs).stream = type_generics_spec gs)
    ∧ (∀ gs : Generics, (Generics.type_generics (gs.map erase_bounds)).stream
        = (Generics.type_generics gs).stream)
    ∧ (Generics.impl_generics generics_a_T).stream = angle_bare_tokens
    ∧ (Generics.type_generics generics_a_T).stream = angle_bare_tokens
    ∧ (Generics.type_generics generics_a_T_display).stream = angle_bare_tokens := by
  refine ⟨impl_generics_eq_spec, type_generics_eq_spec, ?_, rfl, rfl, rfl⟩
  intro gs
  rw [type_generics_eq_spec, type_generics_eq_spec]
  simp [type_generics_spec, List.map_map, Function.comp_def, bare_erase]

end Virtue
